import Mathlib

/-!
# Shallow embedding of the iterative mass-balance engine of MINESIMRV02

This file embeds the functions of `src/new_functions.ts` that the claims
are about, and proves (or refutes) each claim against the embedding.

Modelling conventions, used uniformly below:

* JavaScript numbers are modelled by exact rationals `ℚ`.  Division on `ℚ`
  is total with `x / 0 = 0`; at the few comparison sites where the source
  can transiently produce `Infinity`/`NaN` the branch condition is spelled
  out case by case so that the embedded branch agrees with the JS branch
  (each such site carries a comment).
* A JS object used as a string-keyed number map is an association list
  `Dict` with unique keys; `m[k] || 0` is `dictGet0`, `m[k] = v` is
  `dictInsert` (overwrite in place, else append), `{...a, ...b}` is
  `dictSpread`.
* A falsy test on a JS number is a test against `0` (`jsOr` is `||`);
  an optional object/string field is an `Option`.
* Arrays are `List`s; `arr[i]` guarded by existence is `List.get?`,
  `arr[idx] = v` is `List.set`.
-/

namespace MineSim

set_option maxRecDepth 4000000

/-- A JS object used as a map from string keys to numbers. -/
abbrev Dict := List (String × ℚ)

/-- First entry with the given key (JS property lookup). -/
def dictFind? (d : Dict) (k : String) : Option ℚ :=
  (d.find? (fun p => p.1 = k)).map Prod.snd

/-- JS read `m[k] || 0` (also covering `m?.[k] || 0` on a present map). -/
def dictGet0 (d : Dict) (k : String) : ℚ :=
  (dictFind? d k).getD 0

/-- JS write `m[k] = v`: overwrite the entry in place, else append. -/
def dictInsert (d : Dict) (k : String) (v : ℚ) : Dict :=
  if (d.find? (fun p => p.1 = k)).isSome then
    d.map (fun p => if p.1 = k then (k, v) else p)
  else
    d ++ [(k, v)]

/-- JS object spread `{...base, ...top}`: keys of `base` first (values from
`top` where present), then the new keys of `top`. -/
def dictSpread (base top : Dict) : Dict :=
  base.map (fun p => (p.1, (dictFind? top p.1).getD p.2))
    ++ top.filter (fun p => (dictFind? base p.1).isNone)

/-- Sum of the values of a map (JS `Object.values(m).reduce(+)`). -/
def dictValuesSum (d : Dict) : ℚ :=
  (d.map Prod.snd).sum

/-- JS `a || b` on numbers: `0` (and an absent number, which every read
below treats like `0`) is falsy. -/
def jsOr (a b : ℚ) : ℚ := if a = 0 then b else a

/-- JS `a || b` on a count. -/
def jsOrNat (a b : ℕ) : ℕ := if a = 0 then b else a

/-- A JS `for (const c of l) m[key(c)] = val(key(c))` loop building a map
whose entry for each element depends only on its key.  A source loop that
fills several such maps in one pass is embedded as one `buildDict` per map
(the entries are independent, so the value is the same). -/
def buildDict {α : Type} (l : List α) (key : α → String) (val : String → ℚ) : Dict :=
  l.foldl (fun d c => dictInsert d (key c) (val (key c))) []

/-- A tracked mineral species (`MineralComponent`); only the fields the
embedded functions read are carried. -/
structure MineralComponent where
  id : String
  symbol : String := ""
  isActive : Bool := true
  defaultGrade : ℚ := 0
  deriving DecidableEq, Repr, Inhabited

/-- A flow line (stream edge).  `fromEquipment`/`toEquipment` absent marks a
circuit feed/product; `components`/`componentGrades` are `Option` because the
propagation code defends against `undefined` on them.  Geometry-only fields
of the source interface (coordinates, style, color, ...) are omitted: no
embedded function reads them. -/
structure FlowLine where
  id : String := ""
  fromEquipment : Option String := none
  toEquipment : Option String := none
  flowRate : ℚ := 0
  solidPercent : ℚ := 0
  density : ℚ := 0
  particleSize : ℚ := 0
  components : Option (List String) := none
  componentGrades : Option Dict := none
  mineralContent : Dict := []
  deriving DecidableEq, Repr, Inhabited

/-- Equipment parameters (only the fields read by the embedded transfer
functions; `0`/`none`/`[]` stand for an absent JS field). -/
structure EquipmentParams where
  numberOfOutputs : ℕ := 0
  splits : Option (List ℚ) := none
  recovery : ℚ := 0
  /-- per-component `{ recovery }` overrides (`parameters.components`) -/
  components : List (String × ℚ) := []
  targetSize : ℚ := 0
  deriving DecidableEq, Repr, Inhabited

/-- A node of the circuit graph. -/
structure Equipment where
  id : String := ""
  type : String := ""
  parameters : EquipmentParams := {}
  deriving DecidableEq, Repr, Inhabited

/-- `DetailedStream`: the per-run enriched view of a flow line. -/
structure DetailedStream where
  flowRate : ℚ := 0
  solidPercent : ℚ := 0
  density : ℚ := 0
  particleSize : ℚ := 0
  mineralContent : Dict := []
  volumetricFlow : ℚ := 0
  componentMass : Dict := []
  componentPercentages : Dict := []
  solidFlow : ℚ := 0
  waterFlow : ℚ := 0
  deriving DecidableEq, Repr, Inhabited

/-- `convertToDetailedStream(flowLine, activeComponents)`. -/
def convertToDetailedStream (flowLine : FlowLine)
    (activeComponents : List MineralComponent) : DetailedStream :=
  let solidFlow := flowLine.flowRate * (flowLine.solidPercent / 100)
  let waterFlow := flowLine.flowRate - solidFlow
  let volumetricFlow := solidFlow / jsOr flowLine.density (14/5) + waterFlow / 1
  let massOf := fun cid =>
    solidFlow * ((flowLine.componentGrades.map (fun g => dictGet0 g cid)).getD 0 / 100)
  let componentMass := buildDict activeComponents (·.id) massOf
  let componentPercentages := buildDict activeComponents (·.id) (fun cid =>
    if 0 < flowLine.flowRate then massOf cid / flowLine.flowRate * 100 else 0)
  { flowRate := flowLine.flowRate
    solidPercent := flowLine.solidPercent
    density := jsOr flowLine.density (14/5)
    particleSize := jsOr flowLine.particleSize 150
    mineralContent := flowLine.mineralContent
    volumetricFlow := volumetricFlow
    componentMass := componentMass
    componentPercentages := componentPercentages
    waterFlow := waterFlow
    solidFlow := solidFlow }

/-- Per-component recovery override lookup
(`equipment.parameters.components?.[comp.id]?.recovery || recovery`). -/
def componentRecovery (params : EquipmentParams) (compId : String) (recovery : ℚ) : ℚ :=
  jsOr (((params.components.find? (fun p => p.1 = compId)).map Prod.snd).getD 0) recovery

/-- `calculateEquipmentBalanceWithClosure` (the `WithClosure` variant the
iterative solver calls: mixer split, flotation with per-component closure,
pass-through default). -/
def calculateEquipmentBalanceWithClosure (equipment : Equipment)
    (inputStreams : List DetailedStream)
    (activeComponents : List MineralComponent) : List DetailedStream :=
  if inputStreams = [] then [] else
  let totalInputFlow := (inputStreams.map (·.flowRate)).sum
  let totalInputSolids := (inputStreams.map (·.solidFlow)).sum
  let totalInputComponentMass : Dict := buildDict activeComponents (·.id) (fun cid =>
    (inputStreams.map (fun s => dictGet0 s.componentMass cid)).sum)
  if equipment.type = "mixer" then
    let numOutputs := jsOrNat equipment.parameters.numberOfOutputs 1
    let splits := equipment.parameters.splits.getD
      (List.replicate numOutputs (100 / (numOutputs : ℚ)))
    (List.range numOutputs).map (fun i =>
      let splitFraction := jsOr (splits.getD i 0) (100 / (numOutputs : ℚ)) / 100
      let outputFlow := totalInputFlow * splitFraction
      let outputSolids := totalInputSolids * splitFraction
      let outMassOf := fun cid => dictGet0 totalInputComponentMass cid * splitFraction
      let outputComponentMass := buildDict activeComponents (·.id) outMassOf
      let outputComponentPercentages := buildDict activeComponents (·.id) (fun cid =>
        if 0 < outputSolids then outMassOf cid / outputSolids * 100 else 0)
      { flowRate := outputFlow
        solidPercent := if 0 < outputFlow then outputSolids / outputFlow * 100 else 0
        density := 14/5
        particleSize := 150
        mineralContent := []
        volumetricFlow := outputSolids / (14/5) + (outputFlow - outputSolids) / 1
        componentMass := outputComponentMass
        componentPercentages := outputComponentPercentages
        solidFlow := outputSolids
        waterFlow := outputFlow - outputSolids })
  else if equipment.type = "rougher" ∨ equipment.type = "cleaner"
      ∨ equipment.type = "recleaner" then
    let input := inputStreams.headD default
    let recovery := jsOr equipment.parameters.recovery 85
    let concMassOf := fun cid =>
      dictGet0 totalInputComponentMass cid * (componentRecovery equipment.parameters cid recovery / 100)
    let tailMassOf := fun cid => dictGet0 totalInputComponentMass cid - concMassOf cid
    let concentrateComponentMass := buildDict activeComponents (·.id) concMassOf
    let tailingComponentMass := buildDict activeComponents (·.id) tailMassOf
    let concentrateFlow := totalInputFlow * (3/10)
    let tailingFlow := totalInputFlow - concentrateFlow
    let concentrateSolids := concentrateFlow * (65/100)
    let tailingSolids := tailingFlow * (35/100)
    let concentratePercentages := buildDict activeComponents (·.id) (fun cid =>
      if 0 < concentrateSolids then dictGet0 concentrateComponentMass cid / concentrateSolids * 100 else 0)
    let tailingPercentages := buildDict activeComponents (·.id) (fun cid =>
      if 0 < tailingSolids then dictGet0 tailingComponentMass cid / tailingSolids * 100 else 0)
    [{ flowRate := concentrateFlow
       solidPercent := 65
       density := input.density
       particleSize := input.particleSize
       mineralContent := []
       volumetricFlow := concentrateSolids / input.density + (concentrateFlow - concentrateSolids) / 1
       componentMass := concentrateComponentMass
       componentPercentages := concentratePercentages
       solidFlow := concentrateSolids
       waterFlow := concentrateFlow - concentrateSolids },
     { flowRate := tailingFlow
       solidPercent := 35
       density := input.density
       particleSize := input.particleSize
       mineralContent := []
       volumetricFlow := tailingSolids / input.density + (tailingFlow - tailingSolids) / 1
       componentMass := tailingComponentMass
       componentPercentages := tailingPercentages
       solidFlow := tailingSolids
       waterFlow := tailingFlow - tailingSolids }]
  else
    inputStreams.map (fun stream =>
      { stream with particleSize := jsOr equipment.parameters.targetSize (stream.particleSize * (1/2)) })

/-- Indices of input-class flow lines (`!fl.fromEquipment`). -/
def inputIdxs (flowLines : List FlowLine) : List ℕ :=
  (flowLines.enum.filter (fun p => p.2.fromEquipment = none)).map Prod.fst

/-- Indices of output-class flow lines (`!fl.toEquipment`). -/
def outputIdxs (flowLines : List FlowLine) : List ℕ :=
  (flowLines.enum.filter (fun p => p.2.toEquipment = none)).map Prod.fst

/-- `Σ (streams[idx]?.f || 0)` over an index list. -/
def sumOver (streams : List DetailedStream) (idxs : List ℕ) (f : DetailedStream → ℚ) : ℚ :=
  (idxs.map (fun i => ((streams.get? i).map f).getD 0)).sum

/-- `Σ (streams[idx]?.componentMass[cid] || 0)` over an index list. -/
def sumMassOver (streams : List DetailedStream) (idxs : List ℕ) (cid : String) : ℚ :=
  sumOver streams idxs (fun s => dictGet0 s.componentMass cid)

/-- One guarded array write `if (arr[i]) arr[i] = f(arr[i])`. -/
def updateAt (l : List DetailedStream) (i : ℕ) (f : DetailedStream → DetailedStream) :
    List DetailedStream :=
  match l.get? i with
  | some s => l.set i (f s)
  | none => l

/-- A `for (const idx of js)` loop of guarded writes. -/
def updateAll (js : List ℕ) (f : DetailedStream → DetailedStream)
    (l : List DetailedStream) : List DetailedStream :=
  js.foldl (fun a i => updateAt a i f) l

/-- The bulk-flow section of `applyMassBalanceClosure`: when the output flow
total is 0 or differs from the input total by more than 10 %, distribute the
input flow (and solids) equally over the existing output streams.  Note the
source does not touch `waterFlow` here. -/
def bulkFlowClosure (inIdx outIdx : List ℕ) (streams : List DetailedStream) :
    List DetailedStream :=
  let totalInputFlow := sumOver streams inIdx (·.flowRate)
  let totalInputSolids := sumOver streams inIdx (·.solidFlow)
  let totalOutputFlow := sumOver streams outIdx (·.flowRate)
  -- JS branch `totalOutputFlow === 0 || |in − out| / in > 0.1`:
  -- when in = 0 and out ≠ 0 the quotient is Infinity (branch taken); when
  -- both are 0 the first disjunct already fires.
  let fire := totalOutputFlow = 0 ∨ (totalInputFlow = 0 ∧ totalOutputFlow ≠ 0) ∨
      (totalInputFlow ≠ 0 ∧ |totalInputFlow - totalOutputFlow| / totalInputFlow > 1/10)
  if fire then
    let activeOutputs := outIdx.filter (fun i => (streams.get? i).isSome)
    if activeOutputs = [] then streams else
    let flowPerOutput := totalInputFlow / (activeOutputs.length : ℚ)
    let solidsPerOutput := totalInputSolids / (activeOutputs.length : ℚ)
    updateAll activeOutputs (fun s =>
      { s with flowRate := flowPerOutput
               solidFlow := solidsPerOutput
               solidPercent :=
                 if 0 < flowPerOutput then solidsPerOutput / flowPerOutput * 100 else 0 })
      streams
  else streams

/-- The per-component section of `applyMassBalanceClosure` for one component:
forward proportional correction of the outputs when input mass is positive
and the totals differ by more than 0.001, then reverse equal-split onto the
inputs when the input mass is 0 and the output mass positive. -/
def componentClosureStep (inIdx outIdx : List ℕ) (acc : List DetailedStream)
    (comp : MineralComponent) : List DetailedStream :=
  let totalInMass := sumMassOver acc inIdx comp.id
  let totalOutMass := sumMassOver acc outIdx comp.id
  let acc1 :=
    if 0 < totalInMass ∧ |totalInMass - totalOutMass| > 1/1000 then
      let correctionFactor := totalInMass / jsOr totalOutMass 1
      updateAll outIdx (fun s =>
        let newMass := dictGet0 s.componentMass comp.id * correctionFactor
        { s with componentMass := dictInsert s.componentMass comp.id newMass
                 componentPercentages := dictInsert s.componentPercentages comp.id
                   (if 0 < s.solidFlow then newMass / s.solidFlow * 100 else 0) }) acc
    else acc
  if totalInMass = 0 ∧ 0 < totalOutMass then
    let activeInputs := inIdx.filter (fun i => (acc1.get? i).isSome)
    if activeInputs = [] then acc1 else
    let componentMassPerInput := totalOutMass / (activeInputs.length : ℚ)
    updateAll activeInputs (fun s =>
      { s with componentMass := dictInsert s.componentMass comp.id componentMassPerInput
               componentPercentages := dictInsert s.componentPercentages comp.id
                 (if 0 < s.solidFlow then componentMassPerInput / s.solidFlow * 100 else 0) })
      acc1
  else acc1

/-- `applyMassBalanceClosure(streams, flowLines, activeComponents)`: bulk-flow
equal-split correction, then per-component proportional correction (forward)
or equal-split (reverse). -/
def applyMassBalanceClosure (streams : List DetailedStream) (flowLines : List FlowLine)
    (activeComponents : List MineralComponent) : List DetailedStream :=
  let inIdx := inputIdxs flowLines
  let outIdx := outputIdxs flowLines
  if inIdx = [] ∨ outIdx = [] then streams else
  activeComponents.foldl (componentClosureStep inIdx outIdx)
    (bulkFlowClosure inIdx outIdx streams)

/-- `applyGlobalMassBalanceWithClosure(streams, flowLines, activeComponents)`:
per-component equal-split correction, then bulk-flow equal-split (the JS
returns `{ correctedStreams }`; the list is returned directly). -/
def applyGlobalMassBalanceWithClosure (streams : List DetailedStream)
    (flowLines : List FlowLine)
    (activeComponents : List MineralComponent) : List DetailedStream :=
  let inIdx := inputIdxs flowLines
  let outIdx := outputIdxs flowLines
  if inIdx = [] ∨ outIdx = [] then streams else
  let streams1 := activeComponents.foldl (fun acc comp =>
    let totalInputMass := sumMassOver acc inIdx comp.id
    let totalOutputMass := sumMassOver acc outIdx comp.id
    if 0 < totalInputMass then
      let correctionFactor := totalInputMass / jsOr totalOutputMass (1/1000)
      if totalOutputMass = 0 ∨ |correctionFactor - 1| > 1/100 then
        let activeOutputs := outIdx.filter (fun i => (acc.get? i).isSome)
        if activeOutputs = [] then acc else
        let massPerOutput := totalInputMass / (activeOutputs.length : ℚ)
        updateAll activeOutputs (fun s =>
          { s with componentMass := dictInsert s.componentMass comp.id massPerOutput
                   componentPercentages := dictInsert s.componentPercentages comp.id
                     (if 0 < s.solidFlow then massPerOutput / s.solidFlow * 100 else 0) }) acc
      else acc
    else if 0 < totalOutputMass then
      let activeInputs := inIdx.filter (fun i => (acc.get? i).isSome)
      if activeInputs = [] then acc else
      let massPerInput := totalOutputMass / (activeInputs.length : ℚ)
      updateAll activeInputs (fun s =>
        { s with componentMass := dictInsert s.componentMass comp.id massPerInput
                 componentPercentages := dictInsert s.componentPercentages comp.id
                   (if 0 < s.solidFlow then massPerInput / s.solidFlow * 100 else 0) }) acc
    else acc) streams
  let totalInputFlow := sumOver streams1 inIdx (·.flowRate)
  let totalOutputFlow := sumOver streams1 outIdx (·.flowRate)
  if 0 < totalInputFlow ∧ (totalOutputFlow = 0 ∨ |totalInputFlow - totalOutputFlow| > 1/100) then
    let activeOutputs := outIdx.filter (fun i => (streams1.get? i).isSome)
    if activeOutputs = [] then streams1 else
    let flowPerOutput := totalInputFlow / (activeOutputs.length : ℚ)
    updateAll activeOutputs (fun s =>
      let solidFlow := flowPerOutput * (s.solidPercent / 100)
      let waterFlow := flowPerOutput * (1 - s.solidPercent / 100)
      { s with flowRate := flowPerOutput
               solidFlow := solidFlow
               waterFlow := waterFlow
               volumetricFlow := solidFlow / s.density + waterFlow / 1 }) streams1
  else if 0 < totalOutputFlow ∧ totalInputFlow = 0 then
    let activeInputs := inIdx.filter (fun i => (streams1.get? i).isSome)
    if activeInputs = [] then streams1 else
    let flowPerInput := totalOutputFlow / (activeInputs.length : ℚ)
    updateAll activeInputs (fun s =>
      let solidFlow := flowPerInput * (s.solidPercent / 100)
      let waterFlow := flowPerInput * (1 - s.solidPercent / 100)
      { s with flowRate := flowPerInput
               solidFlow := solidFlow
               waterFlow := waterFlow
               volumetricFlow := solidFlow / s.density + waterFlow / 1 }) streams1
  else streams1

/-- Sum of a stream's component percentages over the active components. -/
def pctSum (stream : DetailedStream) (activeComponents : List MineralComponent) : ℚ :=
  (activeComponents.map (fun c => dictGet0 stream.componentPercentages c.id)).sum

/-- `normalizeStreamCompositions(streams, activeComponents)`. -/
def normalizeStreamCompositions (streams : List DetailedStream)
    (activeComponents : List MineralComponent) : List DetailedStream :=
  streams.map (fun stream =>
    let totalPercentage := pctSum stream activeComponents
    if 0 < totalPercentage ∧ |totalPercentage - 100| > 1/100 then
      let normalizationFactor := 100 / totalPercentage
      let pctOf := fun cid => dictGet0 stream.componentPercentages cid * normalizationFactor
      let normalizedPercentages := buildDict activeComponents (·.id) pctOf
      let normalizedMasses := buildDict activeComponents (·.id) (fun cid =>
        stream.solidFlow * (pctOf cid / 100))
      { stream with componentPercentages := normalizedPercentages,
                    componentMass := normalizedMasses }
    else stream)

/-- `calculateComponentErrors(streams, flowLines, activeComponents)`. -/
def calculateComponentErrors (streams : List DetailedStream) (flowLines : List FlowLine)
    (activeComponents : List MineralComponent) : Dict :=
  let inIdx := inputIdxs flowLines
  let outIdx := outputIdxs flowLines
  buildDict activeComponents (·.id) (fun cid =>
    let totalIn := sumMassOver streams inIdx cid
    let totalOut := sumMassOver streams outIdx cid
    if 0 < totalIn then |totalIn - totalOut| / totalIn * 100 else 0)

/-- Result of `checkConvergence`. -/
structure ConvergenceCheck where
  converged : Bool
  maxError : ℚ
  deriving DecidableEq, Repr

/-- `checkConvergence(streams, flowLines, activeComponents, tolerance)`;
`Math.max(...Object.values(errors), 0)` is a fold of `max` with seed `0`. -/
def checkConvergence (streams : List DetailedStream) (flowLines : List FlowLine)
    (activeComponents : List MineralComponent) (tolerance : ℚ) : ConvergenceCheck :=
  let errors := calculateComponentErrors streams flowLines activeComponents
  let maxError := (errors.map Prod.snd).foldr max 0
  { converged := decide (maxError < tolerance), maxError := maxError }

/-- `calculateGlobalError(streams, flowLines, activeComponents)`. -/
def calculateGlobalError (streams : List DetailedStream) (flowLines : List FlowLine)
    (_activeComponents : List MineralComponent) : ℚ :=
  let totalInput := sumOver streams (inputIdxs flowLines) (·.flowRate)
  let totalOutput := sumOver streams (outputIdxs flowLines) (·.flowRate)
  if 0 < totalInput then |totalInput - totalOutput| / totalInput * 100 else 0

/-- `evaluateCoherence(streams, equipments, activeComponents)`.  The report
structure (which findings are emitted, tagged `ERROR`/`WARNING`, in source
order) is embedded faithfully; the interpolated numeric display text of each
message is elided, which no caller inspects. -/
def evaluateCoherence (streams : List DetailedStream) (_equipments : List Equipment)
    (activeComponents : List MineralComponent) : List String :=
  let report := streams.foldl (fun report stream =>
    let compReports := activeComponents.foldl (fun r comp =>
      let percentage := dictGet0 stream.componentPercentages comp.id
      let r := if percentage < 0 then
          r ++ ["ERROR: stream has negative grade for " ++ comp.symbol] else r
      if 100 < percentage then
        r ++ ["ERROR: stream has impossible grade for " ++ comp.symbol] else r) []
    let totalPercentage := pctSum stream activeComponents
    let report := report ++ compReports
    let report := if |totalPercentage - 100| > 1/10 then
        report ++ ["WARNING: stream total composition differs from 100"] else report
    let report := if stream.solidPercent < 0 ∨ 100 < stream.solidPercent then
        report ++ ["ERROR: stream has impossible solid percentage"] else report
    if stream.density ≤ 0 then
      report ++ ["ERROR: stream has invalid density"] else report) []
  if report = [] then ["All results are physically coherent and mathematically consistent"]
  else report

/-! ## Data propagation (`propagateStreamData`)

The JS pass mutates `updatedFlowLines` in place while iterating `i` over all
lines; within one `i`-iteration the local `flowLine` keeps the value the line
had when the iteration started (CASE 3's write is therefore discarded by
CASE 4's write, which spreads the stale `flowLine`).  CASE 1/2 locate their
targets by object identity (`indexOf`), i.e. by position; each matching
position is rewritten once from its captured value, so the inner loop is a
pointwise `map`. -/

/-- `!g || Object.keys(g).length === 0`. -/
def gradesEmpty (g : Option Dict) : Bool :=
  g = none ∨ g = some []

/-- `!c || c.length === 0`. -/
def compsEmpty (c : Option (List String)) : Bool :=
  c = none ∨ c = some []

/-- JS `a || b` on optional arrays: a present array (even `[]`) is truthy. -/
def jsOrList (a b : Option (List String)) : Option (List String) :=
  match a with
  | some l => some l
  | none => b

/-- CASE 1/2 target filter: the target is connected to the given equipment id
on the given side and has zero flow or no/empty grades. -/
def deficient (os : FlowLine) : Bool :=
  os.flowRate = 0 ∨ gradesEmpty os.componentGrades

/-- CASE 1/2 inner guard (`os.flowRate === 0 || !os.componentGrades`). -/
def innerDeficient (os : FlowLine) : Bool :=
  os.flowRate = 0 ∨ os.componentGrades = none

/-- CASE 1 copy from feed `fl` onto output `os`. -/
def copyFwd (os fl : FlowLine) : FlowLine :=
  { os with flowRate := jsOr os.flowRate fl.flowRate
            solidPercent := jsOr os.solidPercent fl.solidPercent
            density := jsOr os.density fl.density
            particleSize := jsOr os.particleSize fl.particleSize
            components := jsOrList os.components (jsOrList fl.components (some []))
            componentGrades :=
              some (dictSpread (fl.componentGrades.getD []) (os.componentGrades.getD [])) }

/-- CASE 2 copy from product `fl` back onto input `os` (particle size is
doubled relative to the product's, reflecting size reduction). -/
def copyBwd (os fl : FlowLine) : FlowLine :=
  { os with flowRate := jsOr os.flowRate fl.flowRate
            solidPercent := jsOr os.solidPercent fl.solidPercent
            density := jsOr os.density fl.density
            particleSize := jsOr os.particleSize (jsOr fl.particleSize 150 * 2)
            components := jsOrList os.components (jsOrList fl.components (some []))
            componentGrades :=
              some (dictSpread (fl.componentGrades.getD []) (os.componentGrades.getD [])) }

/-- CASE 1 fire condition on a candidate target. -/
def fwdFires (fl os : FlowLine) : Bool :=
  os.fromEquipment = fl.toEquipment ∧ deficient os ∧ innerDeficient os

/-- CASE 2 fire condition on a candidate target. -/
def bwdFires (fl os : FlowLine) : Bool :=
  os.toEquipment = fl.fromEquipment ∧ deficient os ∧ innerDeficient os

/-- CASE 3 replacement: all active components at their default grades,
renormalized to sum to 100 when the default total is positive. -/
def defaultFill (acomps : List MineralComponent) (fl : FlowLine) : FlowLine :=
  let newComponentGrades : Dict :=
    acomps.foldl (fun d comp => dictInsert d comp.id (jsOr comp.defaultGrade 0)) []
  let totalGrade := dictValuesSum newComponentGrades
  let newComponentGrades :=
    if 0 < totalGrade then
      newComponentGrades.map (fun p => (p.1, p.2 * (100 / totalGrade)))
    else newComponentGrades
  { fl with components := some (acomps.map (·.id))
            componentGrades := some newComponentGrades }

/-- CASE 4 flow estimate: sum of the positive-flow siblings feeding the same
equipment, else the constant default 1000. -/
def estimateFlow (arr : List FlowLine) (fl : FlowLine) : ℚ :=
  match fl.fromEquipment with
  | some e =>
    let siblingInputs := arr.filter (fun v => v.toEquipment = some e ∧ 0 < v.flowRate)
    if siblingInputs = [] then 1000 else (siblingInputs.map (·.flowRate)).sum
  | none => 1000

/-- CASE 4 replacement (built from the stale `flowLine`, so a CASE 3 write in
the same step is discarded, as in the source). -/
def flowFill (arr : List FlowLine) (fl : FlowLine) : FlowLine :=
  { fl with flowRate := estimateFlow arr fl
            solidPercent := jsOr fl.solidPercent 70
            density := jsOr fl.density (14/5) }

/-- CASE 1 of the pass: a feed line (`!fromEquipment`, `toEquipment` set)
fills every deficient output of its target equipment.  Each matching
position is rewritten once from its captured value, so the loop is a
pointwise map. -/
def fwdMap (fl : FlowLine) (arr : List FlowLine) : List FlowLine :=
  if fl.fromEquipment = none ∧ fl.toEquipment ≠ none then
    arr.map (fun os => if fwdFires fl os then copyFwd os fl else os)
  else arr

/-- Number of CASE 1 writes (the `changesInThisIteration` contribution). -/
def fwdCount (fl : FlowLine) (arr : List FlowLine) : ℕ :=
  if fl.fromEquipment = none ∧ fl.toEquipment ≠ none then
    arr.countP (fun os => fwdFires fl os)
  else 0

/-- CASE 2 of the pass: a product line fills every deficient input of its
source equipment. -/
def bwdMap (fl : FlowLine) (arr : List FlowLine) : List FlowLine :=
  if fl.fromEquipment ≠ none ∧ fl.toEquipment = none then
    arr.map (fun os => if bwdFires fl os then copyBwd os fl else os)
  else arr

/-- Number of CASE 2 writes. -/
def bwdCount (fl : FlowLine) (arr : List FlowLine) : ℕ :=
  if fl.fromEquipment ≠ none ∧ fl.toEquipment = none then
    arr.countP (fun os => bwdFires fl os)
  else 0

/-- CASE 3 of the pass: default component data when both the component list
and the grades of the line (as read at the start of its iteration) are
missing or empty. -/
def fillCase3 (acomps : List MineralComponent) (fl : FlowLine) (i : ℕ)
    (arr : List FlowLine) : List FlowLine :=
  if compsEmpty fl.components ∧ gradesEmpty fl.componentGrades then
    arr.set i (defaultFill acomps fl)
  else arr

/-- CASE 4 of the pass: default flow rate when the line's flow (as read at
the start of its iteration — so a CASE 3 write in the same iteration is
discarded, as in the source) is zero. -/
def fillCase4 (fl : FlowLine) (i : ℕ) (arr : List FlowLine) : List FlowLine :=
  if fl.flowRate = 0 then arr.set i (flowFill arr fl) else arr

/-- One `i`-iteration of the propagation pass: CASES 1–4 in source order,
returning the updated array and the updated change counter. -/
def propStep (acomps : List MineralComponent) (p : List FlowLine × ℕ) (i : ℕ) :
    List FlowLine × ℕ :=
  match p.1.get? i with
  | none => p
  | some fl =>
    let a1 := fwdMap fl p.1
    let a2 := bwdMap fl a1
    let a3 := fillCase3 acomps fl i a2
    let a4 := fillCase4 fl i a3
    (a4, p.2 + fwdCount fl p.1 + bwdCount fl a1
      + (if compsEmpty fl.components ∧ gradesEmpty fl.componentGrades then 1 else 0)
      + (if fl.flowRate = 0 then 1 else 0))

/-- One pass of the propagation loop over every line. -/
def propPass (acomps : List MineralComponent) (arr : List FlowLine) :
    List FlowLine × ℕ :=
  (List.range arr.length).foldl (propStep acomps) (arr, 0)

/-- The outer propagation loop: up to `fuel` passes, stopping early when a
pass makes no changes. -/
def propLoop (acomps : List MineralComponent) : ℕ → List FlowLine → List FlowLine
  | 0, arr => arr
  | fuel+1, arr =>
    let p := propPass acomps arr
    if p.2 = 0 then p.1 else propLoop acomps fuel p.1

/-- `propagateStreamData(flowLines, mineralComponents)`: ten bounded passes
of the four-case gap-filling rules. -/
def propagateStreamData (flowLines : List FlowLine)
    (mineralComponents : List MineralComponent) : List FlowLine :=
  propLoop (mineralComponents.filter (·.isActive)) 10 flowLines

/-! ## Iterative solver (`solveIterativeMassBalance`) -/

/-- The run's diagnostic summary.  `maxError` is
`Math.max(...Object.values(componentErrors))`, which is `-Infinity` on an
empty map: modelled as `WithBot ℚ` with `⊥` for the empty maximum. -/
structure IterativeResult where
  converged : Bool
  iterations : ℕ
  globalError : ℚ
  componentErrors : Dict
  maxError : WithBot ℚ
  coherenceIssues : List String
  deriving DecidableEq, Repr

/-- `Math.max(...l)`: `⊥` (-Infinity) on an empty list. -/
def listMaxBot (l : List ℚ) : WithBot ℚ :=
  l.foldr (fun a b => max (a : WithBot ℚ) b) ⊥

/-- Step 3 of each iteration: process every equipment in list order, writing
its transfer-function outputs back into the stream array by flow-line id. -/
def processEquipments (equipments : List Equipment) (pfl : List FlowLine)
    (acomps : List MineralComponent)
    (streams : List DetailedStream) : List DetailedStream :=
  equipments.foldl (fun strms equipment =>
    let inputStreamIds := (pfl.filter (fun fl => fl.toEquipment = some equipment.id)).map (·.id)
    let inputStreams := inputStreamIds.filterMap (fun sid =>
      (pfl.findIdx? (fun fl => fl.id = sid)).bind (fun i => strms.get? i))
    if inputStreams = [] then strms else
    let outputStreams := calculateEquipmentBalanceWithClosure equipment inputStreams acomps
    let outputStreamIds := (pfl.filter (fun fl => fl.fromEquipment = some equipment.id)).map (·.id)
    outputStreamIds.enum.foldl (fun s p =>
      match outputStreams.get? p.1 with
      | some os =>
        match pfl.findIdx? (fun fl => fl.id = p.2) with
        | some streamIndex => s.set streamIndex os
        | none => s
      | none => s) strms) streams

/-- Outcome of the `while` loop. -/
structure LoopOut where
  streams : List DetailedStream
  converged : Bool
  iterations : ℕ
  deriving Repr

/-- The solver's `while (!converged && iteration < maxIterations)` loop:
closure → equipment transfer → global closure → normalization → convergence
test, with `fuel` the remaining allowed iterations. -/
def solveLoop (equipments : List Equipment) (pfl : List FlowLine)
    (acomps : List MineralComponent) (tolerance : ℚ) :
    ℕ → List DetailedStream → ℕ → LoopOut
  | 0, streams, iter => ⟨streams, false, iter⟩
  | fuel+1, streams, iter =>
    let s1 := applyMassBalanceClosure streams pfl acomps
    let s2 := processEquipments equipments pfl acomps s1
    let s3 := applyGlobalMassBalanceWithClosure s2 pfl acomps
    let s4 := normalizeStreamCompositions s3 acomps
    let cc := checkConvergence s4 pfl acomps tolerance
    if cc.converged then ⟨s4, true, iter + 1⟩
    else solveLoop equipments pfl acomps tolerance fuel s4 (iter + 1)

/-- The solver's full return value. -/
structure SolveResult where
  streams : List DetailedStream
  iterativeResult : IterativeResult
  coherenceReport : List String
  propagatedFlowLines : List FlowLine
  deriving Repr

/-- `solveIterativeMassBalance(equipments, flowLines, mineralComponents,
maxIterations = 50, tolerance = 0.001)`. -/
def solveIterativeMassBalance (equipments : List Equipment) (flowLines : List FlowLine)
    (mineralComponents : List MineralComponent)
    (maxIterations : ℕ := 50) (tolerance : ℚ := 1/1000) : SolveResult :=
  let activeComponents := mineralComponents.filter (·.isActive)
  let propagatedFlowLines := propagateStreamData flowLines mineralComponents
  let streams0 := propagatedFlowLines.map (convertToDetailedStream · activeComponents)
  let out := solveLoop equipments propagatedFlowLines activeComponents tolerance
    maxIterations streams0 0
  let streams := out.streams
  let coherenceReport := evaluateCoherence streams equipments activeComponents
  let componentErrors := calculateComponentErrors streams propagatedFlowLines activeComponents
  { streams := streams
    iterativeResult :=
      { converged := out.converged
        iterations := out.iterations
        globalError := if 0 < streams.length then
            calculateGlobalError streams propagatedFlowLines activeComponents else 0
        componentErrors := componentErrors
        maxError := listMaxBot (componentErrors.map Prod.snd)
        coherenceIssues := coherenceReport.filter (fun r =>
          String.isPrefixOf "ERROR" r ∨ String.isPrefixOf "WARNING" r) }
    coherenceReport := coherenceReport
    propagatedFlowLines := propagatedFlowLines }

/-! ## `mixStreams` -/

/-- `MaterialStream` as read by `mixStreams` (`waterFlow` is read through
`|| 0`, so it is a plain rational; `components` is optional). -/
structure MaterialStream where
  flowRate : ℚ := 0
  solidPercent : ℚ := 0
  density : ℚ := 0
  particleSize : ℚ := 0
  mineralContent : Dict := []
  waterFlow : ℚ := 0
  solidFlow : ℚ := 0
  components : Option Dict := none
  deriving DecidableEq, Repr, Inhabited

/-- Insertion-ordered union of the key sets of a family of maps
(JS `Set` fed in iteration order). -/
def keyUnion (maps : List Dict) : List String :=
  maps.foldl (fun ks d =>
    ks ++ ((d.map Prod.fst).filter (fun k => ¬ k ∈ ks)).dedup) []

/-- `mixStreams(streams, efficiency = 99)`: throws on an empty list, copies a
singleton, otherwise mass-weighted mixing.  In the source the JS divisions
can produce Infinity when a density/size/volume is 0; on `ℚ` those divisions
yield 0 — no property below inspects those fields. -/
def mixStreams (streams : List MaterialStream) (efficiency : ℚ := 99) :
    Except String MaterialStream :=
  if streams = [] then .error "No streams to mix" else
  if streams.length = 1 then .ok (streams.headD default) else
  let totalFlow := (streams.map (·.flowRate)).sum
  let outputTotalFlow := totalFlow * (efficiency / 100)
  let totalSolidFlow := (streams.map (fun s => s.flowRate * s.solidPercent / 100)).sum
  let outputSolidFlow := totalSolidFlow * (efficiency / 100)
  let mixedSolidPercent :=
    if 0 < outputTotalFlow then outputSolidFlow / outputTotalFlow * 100 else 0
  let totalVolume := (streams.map (fun s => s.flowRate / s.density)).sum
  let mixedDensity := totalFlow / totalVolume
  let totalSurfaceArea := (streams.map (fun s => s.flowRate / s.particleSize)).sum
  let mixedParticleSize := totalFlow / totalSurfaceArea
  let allMinerals := keyUnion (streams.map (·.mineralContent))
  let mixedMineralContent := allMinerals.foldl (fun d mineral =>
    let weightedSum := (streams.map (fun s =>
      s.flowRate * dictGet0 s.mineralContent mineral / 100)).sum
    dictInsert d mineral (weightedSum / totalFlow * 100)) []
  let allComponents := keyUnion (streams.map (fun s => s.components.getD []))
  let mixedComponents := allComponents.foldl (fun d component =>
    let componentMass := (streams.map (fun s =>
      let grade := (s.components.map (fun c => dictGet0 c component)).getD 0
      let solidFlow := s.flowRate * (s.solidPercent / 100)
      solidFlow * grade / 100)).sum
    dictInsert d component
      (if 0 < outputSolidFlow then componentMass / outputSolidFlow * 100 else 0)) []
  .ok
    { flowRate := outputTotalFlow
      solidPercent := mixedSolidPercent
      density := mixedDensity
      particleSize := mixedParticleSize
      mineralContent := mixedMineralContent
      waterFlow := (streams.map (·.waterFlow)).sum * (efficiency / 100)
      solidFlow := outputSolidFlow
      components := some mixedComponents }

/-! ## Statement helpers and concrete fixtures -/

/-- Total mass of one component over a set of streams
(`streams.reduce((sum, s) => sum + (s.componentMass[cid] || 0), 0)`). -/
def totalMassOf (streams : List DetailedStream) (cid : String) : ℚ :=
  (streams.map (fun s => dictGet0 s.componentMass cid)).sum

/-- The effective flotation recovery the transfer function uses for a
component: the per-equipment override if configured, else the scalar
`recovery` parameter, else 85. -/
def flotationRecovery (equipment : Equipment) (cid : String) : ℚ :=
  componentRecovery equipment.parameters cid (jsOr equipment.parameters.recovery 85)

/-- An active iron component. -/
def feComp : MineralComponent :=
  { id := "fe", symbol := "Fe", isActive := true, defaultGrade := 40 }

/-- The same component, inactive. -/
def feInert : MineralComponent :=
  { id := "fe", symbol := "Fe", isActive := false, defaultGrade := 40 }

/-- A fully populated line that is both a circuit feed and a circuit product
(no equipment on either side). -/
def exLoneLine : FlowLine :=
  { id := "s1", flowRate := 1000, solidPercent := 70, density := 14/5,
    particleSize := 150, components := some ["fe"], componentGrades := some [("fe", 0)] }

/-- The lone line with a positive grade. -/
def exFeLine : FlowLine :=
  { exLoneLine with componentGrades := some [("fe", 35)] }

/-- A rougher with scalar recovery 80 %. -/
def exRougher : Equipment :=
  { id := "R1", type := "rougher", parameters := { recovery := 80 } }

/-- A feed stream carrying 100 t/h of `fe`. -/
def exFeedStream : DetailedStream :=
  { flowRate := 1000, solidPercent := 70, density := 14/5, particleSize := 150,
    solidFlow := 700, waterFlow := 300, componentMass := [("fe", 100)],
    componentPercentages := [("fe", 100/7)] }

/-- C2 fixture: one input line into equipment `E`, two output lines. -/
def exC2FlowLines : List FlowLine :=
  [{ id := "in", toEquipment := some "E" },
   { id := "o1", fromEquipment := some "E" },
   { id := "o2", fromEquipment := some "E" }]

/-- C2 fixture: input stream carrying 1000 of `x`, outputs carrying 300 and
200 (sum 500, both nonzero and populated). -/
def exC2Streams : List DetailedStream :=
  [{ flowRate := 1000, solidFlow := 700, componentMass := [("x", 1000)],
     componentPercentages := [("x", 1000/7)] },
   { flowRate := 500, solidFlow := 350, componentMass := [("x", 300)],
     componentPercentages := [("x", 600/7)] },
   { flowRate := 500, solidFlow := 350, componentMass := [("x", 200)],
     componentPercentages := [("x", 400/7)] }]

/-- The single active component of the C2 fixture. -/
def xComp : MineralComponent := { id := "x", isActive := true }

/-- C6 fixture streams: input 1000 t/h, output 500 t/h, both with consistent
solid/water split before the closure runs. -/
def exC6Streams : List DetailedStream :=
  [{ flowRate := 1000, solidPercent := 70, solidFlow := 700, waterFlow := 300 },
   { flowRate := 500, solidPercent := 70, solidFlow := 350, waterFlow := 150 }]

/-- C6 fixture lines: a feed into `E` and a product out of `E`. -/
def exC6FlowLines : List FlowLine :=
  [{ id := "a", toEquipment := some "E" },
   { id := "b", fromEquipment := some "E" }]

/-- C8 fixture: flow 1000 t/h, 70 % solids, 50 % `fe` grade. -/
def exC8Line : FlowLine :=
  { flowRate := 1000, solidPercent := 70, componentGrades := some [("fe", 50)] }

/-- C9 witness circuit: feed and product flows disagree (1000 vs 500). -/
def exC9FlowLines : List FlowLine :=
  [{ id := "a", toEquipment := some "E", flowRate := 1000, solidPercent := 70,
     density := 14/5, particleSize := 150, components := some ["fe"],
     componentGrades := some [("fe", 35)] },
   { id := "b", fromEquipment := some "E", flowRate := 500, solidPercent := 70,
     density := 14/5, particleSize := 150, components := some ["fe"],
     componentGrades := some [("fe", 35)] }]

/-- An equipment whose id appears in no flow line. -/
def exGhostEquipment : Equipment := { id := "ghost", type := "mixer" }

/-! ## Basic dictionary lemmas -/

theorem dictFind?_map_self (d : Dict) (k : String) (v : ℚ)
    (h : (d.find? (fun p => p.1 = k)).isSome) :
    dictFind? (d.map (fun p => if p.1 = k then (k, v) else p)) k = some v := by
  induction d with
  | nil => simp at h
  | cons hd tl ih =>
    by_cases hk : hd.1 = k
    · simp only [List.map_cons, if_pos hk, dictFind?]
      rw [List.find?_cons_of_pos _ (by simp)]
      rfl
    · have h' : (tl.find? (fun p => p.1 = k)).isSome := by
        rwa [List.find?_cons_of_neg _ (by simp [hk])] at h
      simp only [List.map_cons, if_neg hk, dictFind?]
      rw [List.find?_cons_of_neg _ (by simp [hk])]
      exact ih h'

theorem dictFind?_map_ne (d : Dict) (k k' : String) (v : ℚ) (hne : k' ≠ k) :
    dictFind? (d.map (fun p => if p.1 = k then (k, v) else p)) k' = dictFind? d k' := by
  induction d with
  | nil => rfl
  | cons hd tl ih =>
    by_cases hk : hd.1 = k
    · have h1 : ¬ (hd.1 = k') := by rw [hk]; exact fun hc => hne hc.symm
      simp only [List.map_cons, if_pos hk, dictFind?]
      rw [List.find?_cons_of_neg _ (by simp; exact fun hc => hne hc.symm),
        List.find?_cons_of_neg _ (by simp [h1])]
      exact ih
    · simp only [List.map_cons, if_neg hk, dictFind?]
      by_cases hk' : hd.1 = k'
      · rw [List.find?_cons_of_pos _ (by simp [hk']), List.find?_cons_of_pos _ (by simp [hk'])]
      · rw [List.find?_cons_of_neg _ (by simp [hk']), List.find?_cons_of_neg _ (by simp [hk'])]
        exact ih

theorem find?_none_of_not_isSome {α : Type} {p : α → Bool} {l : List α}
    (h : ¬ (l.find? p).isSome = true) : l.find? p = none := by
  cases hf : l.find? p with
  | none => rfl
  | some x => rw [hf] at h; simp at h

theorem dictFind?_insert_self (d : Dict) (k : String) (v : ℚ) :
    dictFind? (dictInsert d k v) k = some v := by
  unfold dictInsert
  by_cases h : (d.find? (fun p => p.1 = k)).isSome
  · rw [if_pos h]
    exact dictFind?_map_self d k v h
  · rw [if_neg h]
    have hnone := find?_none_of_not_isSome h
    simp only [dictFind?, List.find?_append, hnone, Option.none_orElse]
    rw [List.find?_cons_of_pos _ (by simp)]
    rfl

theorem dictFind?_insert_ne (d : Dict) (k k' : String) (v : ℚ) (hne : k' ≠ k) :
    dictFind? (dictInsert d k v) k' = dictFind? d k' := by
  unfold dictInsert
  by_cases h : (d.find? (fun p => p.1 = k)).isSome
  · rw [if_pos h]
    exact dictFind?_map_ne d k k' v hne
  · rw [if_neg h]
    simp only [dictFind?, List.find?_append]
    have : ([(k, v)].find? (fun p => p.1 = k')) = none := by
      rw [List.find?_cons_of_neg _ (by simp; exact fun hc => hne hc.symm)]
      rfl
    rw [this]
    cases d.find? (fun p => p.1 = k') <;> rfl

theorem dictGet0_insert_self (d : Dict) (k : String) (v : ℚ) :
    dictGet0 (dictInsert d k v) k = v := by
  simp [dictGet0, dictFind?_insert_self]

theorem dictGet0_insert_ne (d : Dict) (k k' : String) (v : ℚ) (hne : k' ≠ k) :
    dictGet0 (dictInsert d k v) k' = dictGet0 d k' := by
  simp [dictGet0, dictFind?_insert_ne d k k' v hne]

/-- Looking up a key in a dictionary built by inserting `val ∘ key` for every
element of a list. -/
theorem dictGet0_foldl_insert {α : Type} (l : List α) (key : α → String) (val : String → ℚ)
    (d : Dict) (k : String) :
    dictGet0 (l.foldl (fun d c => dictInsert d (key c) (val (key c))) d) k
      = if k ∈ l.map key then val k else dictGet0 d k := by
  induction l generalizing d with
  | nil => simp
  | cons hd tl ih =>
    simp only [List.foldl_cons, List.map_cons, List.mem_cons]
    rw [ih]
    by_cases hmem : k ∈ tl.map key
    · simp [hmem]
    · by_cases hk : k = key hd
      · simp [hmem, hk, dictGet0_insert_self]
      · simp [hmem, hk, dictGet0_insert_ne _ _ _ _ hk]

/-- Looking up a key in a `buildDict`. -/
theorem dictGet0_buildDict {α : Type} (l : List α) (key : α → String) (val : String → ℚ)
    (k : String) :
    dictGet0 (buildDict l key val) k = if k ∈ l.map key then val k else 0 := by
  rw [buildDict, dictGet0_foldl_insert]
  rfl

/-- The `buildDict` entry of a listed element. -/
theorem dictGet0_buildDict_mem {α : Type} {l : List α} {c : α} (key : α → String)
    (val : String → ℚ) (hc : c ∈ l) :
    dictGet0 (buildDict l key val) (key c) = val (key c) := by
  rw [dictGet0_buildDict, if_pos (List.mem_map_of_mem key hc)]

/-! ## C3: flotation closure by construction -/

/-- C3: for flotation equipment (`rougher`, `cleaner`, `recleaner`) and any
nonempty input, the transfer function used by the iterative solver returns
exactly two streams; for every active component with total input mass `M`
and effective recovery `R` %, the concentrate carries `M·R/100`, the tailing
carries `M − M·R/100`, and the two add up to `M` exactly. -/
theorem C3_flotation_two_product_closure (equipment : Equipment)
    (inputStreams : List DetailedStream) (activeComponents : List MineralComponent)
    (htype : equipment.type = "rougher" ∨ equipment.type = "cleaner"
      ∨ equipment.type = "recleaner")
    (hne : inputStreams ≠ []) :
    (calculateEquipmentBalanceWithClosure equipment inputStreams activeComponents).length = 2 ∧
    ∀ comp ∈ activeComponents,
      dictGet0 ((calculateEquipmentBalanceWithClosure equipment inputStreams
          activeComponents).getD 0 default).componentMass comp.id
        = totalMassOf inputStreams comp.id * (flotationRecovery equipment comp.id / 100) ∧
      dictGet0 ((calculateEquipmentBalanceWithClosure equipment inputStreams
          activeComponents).getD 1 default).componentMass comp.id
        = totalMassOf inputStreams comp.id
          - totalMassOf inputStreams comp.id * (flotationRecovery equipment comp.id / 100) ∧
      dictGet0 ((calculateEquipmentBalanceWithClosure equipment inputStreams
          activeComponents).getD 0 default).componentMass comp.id
        + dictGet0 ((calculateEquipmentBalanceWithClosure equipment inputStreams
          activeComponents).getD 1 default).componentMass comp.id
        = totalMassOf inputStreams comp.id := by
  have hmix : ¬ equipment.type = "mixer" := by
    rcases htype with h | h | h <;> simp [h]
  constructor
  · rw [calculateEquipmentBalanceWithClosure, if_neg hne, if_neg hmix, if_pos htype]
    rfl
  · intro comp hcomp
    have hmem : comp.id ∈ activeComponents.map (fun x => x.id) :=
      List.mem_map_of_mem _ hcomp
    rw [calculateEquipmentBalanceWithClosure, if_neg hne, if_neg hmix, if_pos htype]
    refine ⟨?_, ?_, ?_⟩
    · dsimp only [List.getD_cons_zero]
      rw [dictGet0_buildDict, if_pos hmem, dictGet0_buildDict, if_pos hmem]
      rfl
    · dsimp only [List.getD_cons_succ, List.getD_cons_zero]
      rw [dictGet0_buildDict, if_pos hmem, dictGet0_buildDict, if_pos hmem]
      rfl
    · dsimp only [List.getD_cons_zero, List.getD_cons_succ]
      rw [dictGet0_buildDict, if_pos hmem, dictGet0_buildDict, if_pos hmem,
        dictGet0_buildDict, if_pos hmem, dictGet0_buildDict, if_pos hmem]
      simp only [totalMassOf, flotationRecovery]
      ring

/-- Witness for C3 at a concrete rougher with 80 % recovery and a feed
carrying 100 t/h of `fe` (concentrate 80, tailing 20). -/
theorem C3_flotation_two_product_closure_witness :
    (exRougher.type = "rougher" ∨ exRougher.type = "cleaner" ∨ exRougher.type = "recleaner") ∧
    [exFeedStream] ≠ ([] : List DetailedStream) ∧
    ((calculateEquipmentBalanceWithClosure exRougher [exFeedStream] [feComp]).length = 2 ∧
      ∀ comp ∈ [feComp],
        dictGet0 ((calculateEquipmentBalanceWithClosure exRougher [exFeedStream]
            [feComp]).getD 0 default).componentMass comp.id
          = totalMassOf [exFeedStream] comp.id * (flotationRecovery exRougher comp.id / 100) ∧
        dictGet0 ((calculateEquipmentBalanceWithClosure exRougher [exFeedStream]
            [feComp]).getD 1 default).componentMass comp.id
          = totalMassOf [exFeedStream] comp.id
            - totalMassOf [exFeedStream] comp.id * (flotationRecovery exRougher comp.id / 100) ∧
        dictGet0 ((calculateEquipmentBalanceWithClosure exRougher [exFeedStream]
            [feComp]).getD 0 default).componentMass comp.id
          + dictGet0 ((calculateEquipmentBalanceWithClosure exRougher [exFeedStream]
            [feComp]).getD 1 default).componentMass comp.id
          = totalMassOf [exFeedStream] comp.id) ∧
    totalMassOf [exFeedStream] "fe" = 100 ∧ flotationRecovery exRougher "fe" = 80 :=
  ⟨Or.inl rfl, by decide,
   C3_flotation_two_product_closure exRougher [exFeedStream] [feComp] (Or.inl rfl) (by decide),
   by with_unfolding_all decide, by with_unfolding_all decide⟩

/-! ## C8: grade basis of the initial conversion -/

/-- C8 (code bug): the claim says every recomputed `componentPercentages`
entry for a stream with positive solid flow is `mass / solidFlow × 100`, in
particular at the initial conversion.  `convertToDetailedStream` instead
divides by `flowRate`: for flow 1000, 70 % solids and a 50 % `fe` grade the
component mass is 350 and the solid flow 700, so the claimed basis gives 50,
but the code stores 350/1000 × 100 = 35. -/
theorem C8_conversion_divides_by_flowRate :
    dictGet0 (convertToDetailedStream exC8Line [feComp]).componentMass "fe" = 350 ∧
    (convertToDetailedStream exC8Line [feComp]).solidFlow = 700 ∧
    dictGet0 (convertToDetailedStream exC8Line [feComp]).componentPercentages "fe" = 35 ∧
    dictGet0 (convertToDetailedStream exC8Line [feComp]).componentPercentages "fe"
      ≠ dictGet0 (convertToDetailedStream exC8Line [feComp]).componentMass "fe"
        / (convertToDetailedStream exC8Line [feComp]).solidFlow * 100 := by
  refine ⟨by with_unfolding_all decide, by with_unfolding_all decide,
    by with_unfolding_all decide, by with_unfolding_all decide⟩

/-! ## C10: mixStreams throws exactly on an empty stream list -/

/-- C10: `mixStreams` returns an error if and only if it is called with the
empty stream list; every nonempty list produces a mixed stream. -/
theorem C10_mixStreams_error_iff_empty (streams : List MaterialStream) (efficiency : ℚ) :
    (∃ e, mixStreams streams efficiency = .error e) ↔ streams = [] := by
  constructor
  · intro ⟨e, he⟩
    by_contra hne
    rw [mixStreams, if_neg hne] at he
    by_cases h1 : streams.length = 1
    · rw [if_pos h1] at he; exact Except.noConfusion he
    · rw [if_neg h1] at he; exact Except.noConfusion he
  · intro h
    subst h
    exact ⟨"No streams to mix", rfl⟩

/-! ## Lemmas about guarded index updates -/

theorem updateAt_get?_ne (l : List DetailedStream) (i : ℕ) (f : DetailedStream → DetailedStream)
    (j : ℕ) (h : j ≠ i) : (updateAt l i f).get? j = l.get? j := by
  unfold updateAt
  cases hg : l.get? i with
  | none => rfl
  | some s => exact List.get?_set_ne _ _ (fun hc => h hc.symm)

theorem updateAt_get?_self (l : List DetailedStream) (i : ℕ)
    (f : DetailedStream → DetailedStream) :
    (updateAt l i f).get? i = (l.get? i).map f := by
  unfold updateAt
  cases hg : l.get? i with
  | none => rw [hg]; rfl
  | some s =>
    obtain ⟨hlt, -⟩ := List.get?_eq_some.mp hg
    rw [List.get?_set_eq_of_lt _ hlt]; rfl

theorem updateAll_get?_not_mem (js : List ℕ) (f : DetailedStream → DetailedStream)
    (l : List DetailedStream) (j : ℕ) (h : j ∉ js) :
    (updateAll js f l).get? j = l.get? j := by
  induction js generalizing l with
  | nil => rfl
  | cons i tl ih =>
    rw [updateAll, List.foldl_cons]
    have hji : j ≠ i := fun hc => h (hc ▸ List.mem_cons_self i tl)
    have htl : j ∉ tl := fun hc => h (List.mem_cons_of_mem i hc)
    rw [show tl.foldl (fun a i => updateAt a i f) (updateAt l i f) = updateAll tl f (updateAt l i f) from rfl]
    rw [ih (updateAt l i f) htl, updateAt_get?_ne l i f j hji]

theorem updateAll_get?_mem (js : List ℕ) (f : DetailedStream → DetailedStream)
    (l : List DetailedStream) (j : ℕ) (hnd : js.Nodup) (h : j ∈ js) :
    (updateAll js f l).get? j = (l.get? j).map f := by
  induction js generalizing l with
  | nil => cases h
  | cons i tl ih =>
    rw [updateAll, List.foldl_cons,
      show tl.foldl (fun a i => updateAt a i f) (updateAt l i f) = updateAll tl f (updateAt l i f) from rfl]
    rcases List.mem_cons.mp h with rfl | hmem
    · have hni : j ∉ tl := (List.nodup_cons.mp hnd).1
      rw [updateAll_get?_not_mem tl f _ j hni, updateAt_get?_self]
    · have hji : j ≠ i := fun hc => (List.nodup_cons.mp hnd).1 (hc ▸ hmem)
      rw [ih (updateAt l i f) (List.nodup_cons.mp hnd).2 hmem, updateAt_get?_ne l i f j hji]

/-- The input/output index lists are duplicate-free. -/
theorem idxs_nodup (flowLines : List FlowLine) (p : ℕ × FlowLine → Bool) :
    (((flowLines.enum.filter p).map Prod.fst)).Nodup := by
  have hsub : ((flowLines.enum.filter p).map Prod.fst).Sublist (flowLines.enum.map Prod.fst) :=
    (List.filter_sublist _).map Prod.fst
  rw [List.enum_map_fst] at hsub
  exact List.Nodup.sublist hsub (List.nodup_range _)

theorem inputIdxs_nodup (flowLines : List FlowLine) : (inputIdxs flowLines).Nodup :=
  idxs_nodup flowLines _

theorem outputIdxs_nodup (flowLines : List FlowLine) : (outputIdxs flowLines).Nodup :=
  idxs_nodup flowLines _

/-- A guarded-update pass with a `componentMass`-preserving per-stream
function preserves every stream's component masses. -/
theorem updateAll_preserves_mass (js : List ℕ) (f : DetailedStream → DetailedStream)
    (hf : ∀ s, (f s).componentMass = s.componentMass) (l : List DetailedStream)
    (hnd : js.Nodup) (j : ℕ) (cid : String) :
    ((updateAll js f l).get? j).map (fun s => dictGet0 s.componentMass cid)
      = (l.get? j).map (fun s => dictGet0 s.componentMass cid) := by
  by_cases hmem : j ∈ js
  · rw [updateAll_get?_mem js f l j hnd hmem]
    cases l.get? j with
    | none => rfl
    | some s => simp [hf s]
  · rw [updateAll_get?_not_mem js f l j hmem]

/-- `bulkFlowClosure` never changes component masses. -/
theorem bulkFlowClosure_preserves_mass (inIdx outIdx : List ℕ)
    (hnd : outIdx.Nodup) (streams : List DetailedStream) (j : ℕ) (cid : String) :
    ((bulkFlowClosure inIdx outIdx streams).get? j).map (fun s => dictGet0 s.componentMass cid)
      = (streams.get? j).map (fun s => dictGet0 s.componentMass cid) := by
  rw [bulkFlowClosure]
  dsimp only
  split
  · split
    · rfl
    · refine updateAll_preserves_mass _ _ (fun s => ?_) streams (hnd.filter _) j cid
      rfl
  · rfl

/-- Equal per-index masses give equal mass sums over any index list. -/
theorem sumMassOver_congr (a b : List DetailedStream) (idxs : List ℕ) (cid : String)
    (h : ∀ j ∈ idxs, (a.get? j).map (fun s => dictGet0 s.componentMass cid)
      = (b.get? j).map (fun s => dictGet0 s.componentMass cid)) :
    sumMassOver a idxs cid = sumMassOver b idxs cid := by
  unfold sumMassOver sumOver
  congr 1
  refine List.map_congr_left (fun j hj => ?_)
  rw [h j hj]

/-! ## C6: solid/water split invariant -/

/-- C6 (code bug): the claimed invariant `waterFlow = flowRate − solidFlow`
is established by `convertToDetailedStream` and maintained by the transfer
functions, the global closure and normalization, but the bulk-flow
correction inside `applyMassBalanceClosure` rewrites `flowRate`,
`solidFlow` and `solidPercent` while leaving `waterFlow` stale: with input
1000 t/h and output 500 t/h (both 70 % solids, consistent before the call),
the corrected output stream has flowRate 1000 and solidFlow 700 but still
waterFlow 150 ≠ 300. -/
theorem C6_closure_leaves_waterFlow_stale :
    ((applyMassBalanceClosure exC6Streams exC6FlowLines []).getD 1 default).flowRate = 1000 ∧
    ((applyMassBalanceClosure exC6Streams exC6FlowLines []).getD 1 default).solidFlow = 700 ∧
    ((applyMassBalanceClosure exC6Streams exC6FlowLines []).getD 1 default).waterFlow = 150 ∧
    ((applyMassBalanceClosure exC6Streams exC6FlowLines []).getD 1 default).waterFlow
      ≠ ((applyMassBalanceClosure exC6Streams exC6FlowLines []).getD 1 default).flowRate
        - ((applyMassBalanceClosure exC6Streams exC6FlowLines []).getD 1 default).solidFlow := by
  refine ⟨?_, ?_, ?_, ?_⟩ <;> with_unfolding_all decide

/-! ## C9: run with no active components -/

/-- With no active components the convergence test always passes for a
positive tolerance: there are no component errors and the seeded maximum
is 0. -/
theorem checkConvergence_no_active (streams : List DetailedStream)
    (flowLines : List FlowLine) (tolerance : ℚ) (htol : 0 < tolerance) :
    (checkConvergence streams flowLines [] tolerance).converged = true := by
  simp only [checkConvergence, calculateComponentErrors, buildDict, List.foldl_nil,
    List.map_nil, List.foldr_nil, decide_eq_true_eq]
  exact htol

/-- With no active components, one allowed iteration suffices: the loop
returns converged after exactly one round. -/
theorem solveLoop_no_active (equipments : List Equipment) (pfl : List FlowLine)
    (tolerance : ℚ) (htol : 0 < tolerance) (n : ℕ) (streams : List DetailedStream)
    (iter : ℕ) :
    (solveLoop equipments pfl [] tolerance (n+1) streams iter).converged = true ∧
    (solveLoop equipments pfl [] tolerance (n+1) streams iter).iterations = iter + 1 := by
  rw [solveLoop]
  rw [if_pos (checkConvergence_no_active _ pfl tolerance htol)]
  exact ⟨rfl, rfl⟩

/-- C9: if no mineral component is active and at least one iteration is
allowed, the solver (at the default tolerance 0.001) returns after exactly
one iteration with `converged = true` regardless of any flow imbalance,
with an empty `componentErrors` map and `maxError = ⊥` (the JS
`Math.max()` of no values, i.e. -Infinity). -/
theorem C9_no_active_components (equipments : List Equipment)
    (flowLines : List FlowLine) (mineralComponents : List MineralComponent)
    (maxIterations : ℕ)
    (hinact : ∀ c ∈ mineralComponents, c.isActive = false)
    (hiter : 1 ≤ maxIterations) :
    (solveIterativeMassBalance equipments flowLines mineralComponents maxIterations
      (1/1000)).iterativeResult.converged = true ∧
    (solveIterativeMassBalance equipments flowLines mineralComponents maxIterations
      (1/1000)).iterativeResult.iterations = 1 ∧
    (solveIterativeMassBalance equipments flowLines mineralComponents maxIterations
      (1/1000)).iterativeResult.componentErrors = [] ∧
    (solveIterativeMassBalance equipments flowLines mineralComponents maxIterations
      (1/1000)).iterativeResult.maxError = ⊥ := by
  have hacomps : mineralComponents.filter (·.isActive) = [] := by
    rw [List.filter_eq_nil_iff]
    intro c hc
    simp [hinact c hc]
  obtain ⟨n, rfl⟩ : ∃ n, maxIterations = n + 1 :=
    ⟨maxIterations - 1, (Nat.succ_pred_eq_of_pos hiter).symm⟩
  have h := solveLoop_no_active equipments
    (propagateStreamData flowLines mineralComponents) (1/1000) (by norm_num) n
    ((propagateStreamData flowLines mineralComponents).map
      (convertToDetailedStream · (mineralComponents.filter (·.isActive)))) 0
  simp only [solveIterativeMassBalance, hacomps]
  rw [hacomps] at h
  exact ⟨h.1, h.2, rfl, rfl⟩

/-- Witness for C9: an inactive component, a ghost mixer and a circuit whose
feed (1000 t/h) and product (500 t/h) disagree. -/
theorem C9_no_active_components_witness :
    (∀ c ∈ [feInert], c.isActive = false) ∧ 1 ≤ 5 ∧
    ((solveIterativeMassBalance [exGhostEquipment] exC9FlowLines [feInert] 5
      (1/1000)).iterativeResult.converged = true ∧
    (solveIterativeMassBalance [exGhostEquipment] exC9FlowLines [feInert] 5
      (1/1000)).iterativeResult.iterations = 1 ∧
    (solveIterativeMassBalance [exGhostEquipment] exC9FlowLines [feInert] 5
      (1/1000)).iterativeResult.componentErrors = [] ∧
    (solveIterativeMassBalance [exGhostEquipment] exC9FlowLines [feInert] 5
      (1/1000)).iterativeResult.maxError = ⊥) :=
  ⟨by decide, by decide,
   C9_no_active_components [exGhostEquipment] exC9FlowLines [feInert] 5
     (by decide) (by decide)⟩

/-! ## C2: conflicting totals (1000 in vs 500 out) -/

/-- C2 counterexample: with input component mass 1000 and outputs 300 and
200 (sum 500, nonzero and populated), the global closure
(`applyGlobalMassBalanceWithClosure`, the step the claim's scenario reaches)
sets both outputs to the equal share 500 instead of rescaling them by the
identical factor 2 (which would give 600 and 400); the new sum is still
exactly 1000. -/
theorem C2_global_closure_equal_split_not_rescale :
    sumMassOver exC2Streams (inputIdxs exC2FlowLines) "x" = 1000 ∧
    sumMassOver exC2Streams (outputIdxs exC2FlowLines) "x" = 500 ∧
    ((applyGlobalMassBalanceWithClosure exC2Streams exC2FlowLines [xComp]).map
      (fun s => dictGet0 s.componentMass "x")) = [1000, 500, 500] ∧
    dictGet0 ((applyGlobalMassBalanceWithClosure exC2Streams exC2FlowLines
        [xComp]).getD 1 default).componentMass "x"
      ≠ 2 * dictGet0 (exC2Streams.getD 1 default).componentMass "x" := by
  refine ⟨?_, ?_, ?_, ?_⟩ <;> with_unfolding_all decide

/-- C2 amended: it is `applyMassBalanceClosure` (the closure step at the top
of each solver iteration) whose per-component correction rescales every
output stream by the identical factor `2 = 1000/500`, leaving the outputs
summing to exactly 1000; the global closure instead overwrites each
populated output with the equal share `1000/n`, which also restores the sum
to 1000 but is not a proportional rescale. -/
theorem C2_amended_massBalanceClosure_rescales_by_two
    (streams : List DetailedStream) (flowLines : List FlowLine) (c : MineralComponent)
    (hin : sumMassOver streams (inputIdxs flowLines) c.id = 1000)
    (hout : sumMassOver streams (outputIdxs flowLines) c.id = 500) :
    (∀ i ∈ outputIdxs flowLines,
      ((applyMassBalanceClosure streams flowLines [c]).get? i).map
          (fun s => dictGet0 s.componentMass c.id)
        = (streams.get? i).map (fun s => 2 * dictGet0 s.componentMass c.id)) ∧
    sumMassOver (applyMassBalanceClosure streams flowLines [c])
      (outputIdxs flowLines) c.id = 1000 := by
  have hinne : inputIdxs flowLines ≠ [] := by
    intro h; rw [h] at hin; simp [sumMassOver, sumOver] at hin
  have houtne : outputIdxs flowLines ≠ [] := by
    intro h; rw [h] at hout; simp [sumMassOver, sumOver] at hout
  have hbulk : ∀ j, ((bulkFlowClosure (inputIdxs flowLines) (outputIdxs flowLines)
        streams).get? j).map (fun s => dictGet0 s.componentMass c.id)
      = (streams.get? j).map (fun s => dictGet0 s.componentMass c.id) :=
    fun j => bulkFlowClosure_preserves_mass _ _ (outputIdxs_nodup _) streams j c.id
  have hinB : sumMassOver (bulkFlowClosure (inputIdxs flowLines) (outputIdxs flowLines)
      streams) (inputIdxs flowLines) c.id = 1000 := by
    rw [sumMassOver_congr _ streams _ c.id (fun j _ => hbulk j)]; exact hin
  have houtB : sumMassOver (bulkFlowClosure (inputIdxs flowLines) (outputIdxs flowLines)
      streams) (outputIdxs flowLines) c.id = 500 := by
    rw [sumMassOver_congr _ streams _ c.id (fun j _ => hbulk j)]; exact hout
  have happly : applyMassBalanceClosure streams flowLines [c]
      = componentClosureStep (inputIdxs flowLines) (outputIdxs flowLines)
          (bulkFlowClosure (inputIdxs flowLines) (outputIdxs flowLines) streams) c := by
    rw [applyMassBalanceClosure]
    rw [if_neg (by push_neg; exact ⟨hinne, houtne⟩)]
    rfl
  have hstep : ∀ i ∈ outputIdxs flowLines,
      ((componentClosureStep (inputIdxs flowLines) (outputIdxs flowLines)
          (bulkFlowClosure (inputIdxs flowLines) (outputIdxs flowLines) streams) c).get? i).map
        (fun s => dictGet0 s.componentMass c.id)
      = ((bulkFlowClosure (inputIdxs flowLines) (outputIdxs flowLines) streams).get? i).map
        (fun s => 2 * dictGet0 s.componentMass c.id) := by
    intro i hi
    rw [componentClosureStep]
    dsimp only
    rw [hinB, houtB]
    rw [if_neg (show ¬((1000 : ℚ) = 0 ∧ 0 < (500 : ℚ)) by norm_num)]
    rw [if_pos (show 0 < (1000 : ℚ) ∧ |(1000 : ℚ) - 500| > 1/1000 by norm_num)]
    rw [updateAll_get?_mem _ _ _ i (outputIdxs_nodup _) hi]
    cases (bulkFlowClosure (inputIdxs flowLines) (outputIdxs flowLines) streams).get? i with
    | none => rfl
    | some s =>
      show some _ = some _
      congr 1
      dsimp only
      rw [dictGet0_insert_self]
      rw [show jsOr (500 : ℚ) 1 = 500 from by norm_num [jsOr]]
      norm_num
      ring
  constructor
  · intro i hi
    rw [happly, hstep i hi]
    have := hbulk i
    cases h1 : (bulkFlowClosure (inputIdxs flowLines) (outputIdxs flowLines)
        streams).get? i with
    | none =>
      rw [h1] at this
      cases h2 : streams.get? i with
      | none => rfl
      | some s2 => rw [h2] at this; exact absurd this (by simp)
    | some s1 =>
      rw [h1] at this
      cases h2 : streams.get? i with
      | none => rw [h2] at this; exact absurd this (by simp)
      | some s2 =>
        rw [h2] at this
        simp only [Option.map_some'] at this ⊢
        rw [Option.some_inj] at this
        rw [this]
  · rw [happly]
    have h2 : sumMassOver (componentClosureStep (inputIdxs flowLines) (outputIdxs flowLines)
        (bulkFlowClosure (inputIdxs flowLines) (outputIdxs flowLines) streams) c)
        (outputIdxs flowLines) c.id
        = 2 * sumMassOver (bulkFlowClosure (inputIdxs flowLines) (outputIdxs flowLines)
            streams) (outputIdxs flowLines) c.id := by
      unfold sumMassOver sumOver
      rw [← List.sum_map_mul_left]
      refine congrArg List.sum (List.map_congr_left (fun j hj => ?_))
      rw [hstep j hj]
      cases (bulkFlowClosure (inputIdxs flowLines) (outputIdxs flowLines)
          streams).get? j with
      | none => simp
      | some s => simp
    rw [h2, houtB]
    norm_num

/-- Witness for C2's amended claim at the concrete conflicting-totals
fixture: outputs 300 and 200 become 600 and 400, summing to exactly 1000. -/
theorem C2_amended_massBalanceClosure_rescales_by_two_witness :
    sumMassOver exC2Streams (inputIdxs exC2FlowLines) "x" = 1000 ∧
    sumMassOver exC2Streams (outputIdxs exC2FlowLines) "x" = 500 ∧
    ((∀ i ∈ outputIdxs exC2FlowLines,
      ((applyMassBalanceClosure exC2Streams exC2FlowLines [xComp]).get? i).map
          (fun s => dictGet0 s.componentMass xComp.id)
        = (exC2Streams.get? i).map (fun s => 2 * dictGet0 s.componentMass xComp.id)) ∧
    sumMassOver (applyMassBalanceClosure exC2Streams exC2FlowLines [xComp])
      (outputIdxs exC2FlowLines) xComp.id = 1000) :=
  ⟨by with_unfolding_all decide, by with_unfolding_all decide,
   C2_amended_massBalanceClosure_rescales_by_two exC2Streams exC2FlowLines xComp
     (by with_unfolding_all decide) (by with_unfolding_all decide)⟩

/-! ## C1: the closure invariant at convergence -/

theorem dictFind?_foldl_insert {α : Type} (l : List α) (key : α → String) (val : String → ℚ)
    (d : Dict) (k : String) :
    dictFind? (l.foldl (fun d c => dictInsert d (key c) (val (key c))) d) k
      = if k ∈ l.map key then some (val k) else dictFind? d k := by
  induction l generalizing d with
  | nil => simp
  | cons hd tl ih =>
    simp only [List.foldl_cons, List.map_cons, List.mem_cons]
    rw [ih]
    by_cases hmem : k ∈ tl.map key
    · simp [hmem]
    · by_cases hk : k = key hd
      · simp [hmem, hk, dictFind?_insert_self]
      · simp [hmem, hk, dictFind?_insert_ne _ _ _ _ hk]

/-- A listed key's `buildDict` value occurs among the dictionary's values. -/
theorem buildDict_val_mem_values {α : Type} {l : List α} {c : α} (key : α → String)
    (val : String → ℚ) (hc : c ∈ l) :
    val (key c) ∈ (buildDict l key val).map Prod.snd := by
  have hf : dictFind? (buildDict l key val) (key c) = some (val (key c)) := by
    rw [buildDict, dictFind?_foldl_insert, if_pos (List.mem_map_of_mem key hc)]
  unfold dictFind? at hf
  cases hfind : (buildDict l key val).find? (fun p => p.1 = key c) with
  | none => rw [hfind] at hf; exact Option.noConfusion hf
  | some p =>
    rw [hfind] at hf
    have hp := List.mem_of_find?_eq_some hfind
    have : p.2 = val (key c) := Option.some.inj hf
    exact this ▸ List.mem_map_of_mem Prod.snd hp

/-- Every element of a list is at most its `max` fold, and so is the seed. -/
theorem le_foldr_max (l : List ℚ) (seed : ℚ) :
    seed ≤ l.foldr max seed ∧ ∀ x ∈ l, x ≤ l.foldr max seed := by
  induction l with
  | nil => exact ⟨le_refl _, by simp⟩
  | cons hd tl ih =>
    refine ⟨le_trans ih.1 (le_trans (le_max_right hd _) (le_refl _)), ?_⟩
    intro x hx
    rcases List.mem_cons.mp hx with rfl | hmem
    · exact le_max_left _ _
    · exact le_trans (ih.2 x hmem) (le_max_right _ _)

/-- If the loop reports convergence, the convergence test holds of the
returned stream set. -/
theorem solveLoop_converged_check (equipments : List Equipment) (pfl : List FlowLine)
    (acomps : List MineralComponent) (tolerance : ℚ) :
    ∀ (fuel : ℕ) (streams : List DetailedStream) (iter : ℕ),
    (solveLoop equipments pfl acomps tolerance fuel streams iter).converged = true →
    (checkConvergence (solveLoop equipments pfl acomps tolerance fuel streams
      iter).streams pfl acomps tolerance).converged = true := by
  intro fuel
  induction fuel with
  | zero => intro streams iter h; exact absurd h (by simp [solveLoop])
  | succ n ih =>
    intro streams iter h
    simp only [solveLoop] at h ⊢
    by_cases hc : (checkConvergence (normalizeStreamCompositions
        (applyGlobalMassBalanceWithClosure (processEquipments equipments pfl acomps
          (applyMassBalanceClosure streams pfl acomps)) pfl acomps) acomps) pfl acomps
        tolerance).converged = true
    · rw [if_pos hc] at h ⊢
      exact hc
    · rw [if_neg hc] at h ⊢
      exact ih _ _ h

/-- C1 (closure invariant): whenever `solveIterativeMassBalance` reports
`converged = true`, then for every active component the relative closure
error over the returned streams — |Σ input-class mass − Σ output-class
mass| / Σ input-class mass × 100 — is strictly below the tolerance (input
and output classes read from the returned propagated flow lines; the
quotient is 0 on `ℚ` when the input total is 0, matching the source which
reports error 0 in that case). -/
theorem C1_closure_invariant_at_convergence (equipments : List Equipment)
    (flowLines : List FlowLine) (mineralComponents : List MineralComponent)
    (maxIterations : ℕ) (tolerance : ℚ)
    (hconv : (solveIterativeMassBalance equipments flowLines mineralComponents
      maxIterations tolerance).iterativeResult.converged = true) :
    ∀ comp ∈ mineralComponents.filter (·.isActive),
      |sumMassOver (solveIterativeMassBalance equipments flowLines mineralComponents
            maxIterations tolerance).streams
          (inputIdxs (solveIterativeMassBalance equipments flowLines mineralComponents
            maxIterations tolerance).propagatedFlowLines) comp.id
        - sumMassOver (solveIterativeMassBalance equipments flowLines mineralComponents
            maxIterations tolerance).streams
          (outputIdxs (solveIterativeMassBalance equipments flowLines mineralComponents
            maxIterations tolerance).propagatedFlowLines) comp.id|
        / sumMassOver (solveIterativeMassBalance equipments flowLines mineralComponents
            maxIterations tolerance).streams
          (inputIdxs (solveIterativeMassBalance equipments flowLines mineralComponents
            maxIterations tolerance).propagatedFlowLines) comp.id * 100
      < tolerance := by
  intro comp hcomp
  have hcheck := solveLoop_converged_check equipments
    (propagateStreamData flowLines mineralComponents)
    (mineralComponents.filter (·.isActive)) tolerance maxIterations
    ((propagateStreamData flowLines mineralComponents).map
      (convertToDetailedStream · (mineralComponents.filter (·.isActive)))) 0 hconv
  rw [checkConvergence] at hcheck
  dsimp only at hcheck
  rw [decide_eq_true_eq] at hcheck
  set streams := (solveIterativeMassBalance equipments flowLines mineralComponents
    maxIterations tolerance).streams with hstreams
  set pfl := (solveIterativeMassBalance equipments flowLines mineralComponents
    maxIterations tolerance).propagatedFlowLines with hpfl
  have hstreams2 : (solveLoop equipments (propagateStreamData flowLines mineralComponents)
      (mineralComponents.filter (·.isActive)) tolerance maxIterations
      ((propagateStreamData flowLines mineralComponents).map
        (convertToDetailedStream · (mineralComponents.filter (·.isActive)))) 0).streams
      = streams := rfl
  have hpfl2 : propagateStreamData flowLines mineralComponents = pfl := rfl
  rw [hstreams2, hpfl2] at hcheck
  set tin := sumMassOver streams (inputIdxs pfl) comp.id with htin
  set tout := sumMassOver streams (outputIdxs pfl) comp.id with htout
  have hseed := (le_foldr_max ((calculateComponentErrors streams pfl
    (mineralComponents.filter (·.isActive))).map Prod.snd) 0).1
  rcases lt_trichotomy tin 0 with hneg | hzero | hpos
  · have h1 : |tin - tout| / tin * 100 ≤ 0 := by
      apply mul_nonpos_of_nonpos_of_nonneg
      · exact div_nonpos_of_nonneg_of_nonpos (abs_nonneg _) (le_of_lt hneg)
      · norm_num
    exact lt_of_le_of_lt (le_trans h1 hseed) hcheck
  · rw [hzero]
    simp only [div_zero, zero_mul]
    exact lt_of_le_of_lt hseed hcheck
  · have hval : (if 0 < tin then |tin - tout| / tin * 100 else 0)
        ∈ ((calculateComponentErrors streams pfl
          (mineralComponents.filter (·.isActive))).map Prod.snd) := by
      rw [calculateComponentErrors]
      exact buildDict_val_mem_values _ _ hcomp
    rw [if_pos hpos] at hval
    exact lt_of_le_of_lt ((le_foldr_max _ 0).2 _ hval) hcheck

/-- Witness for C1: a converging one-line circuit with a 35 % `fe` feed. -/
theorem C1_closure_invariant_at_convergence_witness :
    (solveIterativeMassBalance [] [exFeLine] [feComp] 50
      (1/1000)).iterativeResult.converged = true ∧
    (∀ comp ∈ [feComp].filter (·.isActive),
      |sumMassOver (solveIterativeMassBalance [] [exFeLine] [feComp] 50 (1/1000)).streams
          (inputIdxs (solveIterativeMassBalance [] [exFeLine] [feComp] 50
            (1/1000)).propagatedFlowLines) comp.id
        - sumMassOver (solveIterativeMassBalance [] [exFeLine] [feComp] 50 (1/1000)).streams
          (outputIdxs (solveIterativeMassBalance [] [exFeLine] [feComp] 50
            (1/1000)).propagatedFlowLines) comp.id|
        / sumMassOver (solveIterativeMassBalance [] [exFeLine] [feComp] 50 (1/1000)).streams
          (inputIdxs (solveIterativeMassBalance [] [exFeLine] [feComp] 50
            (1/1000)).propagatedFlowLines) comp.id * 100
      < 1/1000) :=
  ⟨by with_unfolding_all decide,
   C1_closure_invariant_at_convergence [] [exFeLine] [feComp] 50 (1/1000)
     (by with_unfolding_all decide)⟩

/-! ## C7: composition normalization in the converged result -/

/-- When the loop reports convergence, the returned stream set is the output
of `normalizeStreamCompositions` on that iteration's globally corrected
streams. -/
theorem solveLoop_converged_normalized (equipments : List Equipment) (pfl : List FlowLine)
    (acomps : List MineralComponent) (tolerance : ℚ) :
    ∀ (fuel : ℕ) (streams : List DetailedStream) (iter : ℕ),
    (solveLoop equipments pfl acomps tolerance fuel streams iter).converged = true →
    ∃ s3, (solveLoop equipments pfl acomps tolerance fuel streams iter).streams
      = normalizeStreamCompositions s3 acomps := by
  intro fuel
  induction fuel with
  | zero => intro streams iter h; exact absurd h (by simp [solveLoop])
  | succ n ih =>
    intro streams iter h
    simp only [solveLoop] at h ⊢
    by_cases hc : (checkConvergence (normalizeStreamCompositions
        (applyGlobalMassBalanceWithClosure (processEquipments equipments pfl acomps
          (applyMassBalanceClosure streams pfl acomps)) pfl acomps) acomps) pfl acomps
        tolerance).converged = true
    · rw [if_pos hc]
      exact ⟨_, rfl⟩
    · rw [if_neg hc] at h ⊢
      exact ih _ _ h

/-- `pctSum` of a stream whose percentages are a freshly built dictionary. -/
theorem pctSum_buildDict (acomps : List MineralComponent) (s : DetailedStream)
    (val : String → ℚ)
    (h : s.componentPercentages = buildDict acomps (fun c => c.id) val) :
    pctSum s acomps = (acomps.map (fun c => val c.id)).sum := by
  unfold pctSum
  rw [h]
  exact congrArg List.sum (List.map_congr_left (fun c hc => dictGet0_buildDict_mem _ _ hc))

/-- After one normalization pass, every stream's active-component percentage
sum is within 0.1 of 100 or not positive: a positive sum off by more than
0.01 is rescaled to exactly 100, a positive sum within 0.01 is kept, and a
non-positive sum is left untouched. -/
theorem normalized_pctSum (acomps : List MineralComponent)
    (streams : List DetailedStream) :
    ∀ t ∈ normalizeStreamCompositions streams acomps,
      |pctSum t acomps - 100| ≤ 1/10 ∨ pctSum t acomps ≤ 0 := by
  intro t ht
  rw [normalizeStreamCompositions] at ht
  obtain ⟨stream, hs, rfl⟩ := List.mem_map.mp ht
  dsimp only
  by_cases h1 : 0 < pctSum stream acomps ∧ |pctSum stream acomps - 100| > 1/100
  · rw [if_pos h1]
    left
    rw [pctSum_buildDict acomps _ (fun cid =>
      dictGet0 stream.componentPercentages cid * (100 / pctSum stream acomps)) rfl,
      List.sum_map_mul_right]
    rw [show (acomps.map (fun c => dictGet0 stream.componentPercentages c.id)).sum
      = pctSum stream acomps from rfl]
    rw [mul_div_cancel₀ _ (ne_of_gt h1.1)]
    norm_num
  · rw [if_neg h1]
    push_neg at h1
    by_cases h2 : 0 < pctSum stream acomps
    · left
      have := h1 h2
      calc |pctSum stream acomps - 100| ≤ 1/100 := this
        _ ≤ 1/10 := by norm_num
    · right
      exact le_of_not_lt h2

/-- C7 counterexample: a converging circuit (one line that is both feed and
product, with `fe` grade 0) whose single stream has positive solid flow 700
but active-component percentage sum 0, not within 0.1 of 100 — the claim's
only allowed exception is zero solid flow. -/
theorem C7_positive_solidFlow_zero_sum :
    (solveIterativeMassBalance [] [exLoneLine] [feComp] 50
      (1/1000)).iterativeResult.converged = true ∧
    ((solveIterativeMassBalance [] [exLoneLine] [feComp] 50
      (1/1000)).streams.getD 0 default).solidFlow = 700 ∧
    pctSum ((solveIterativeMassBalance [] [exLoneLine] [feComp] 50
      (1/1000)).streams.getD 0 default) [feComp] = 0 ∧
    ¬ |pctSum ((solveIterativeMassBalance [] [exLoneLine] [feComp] 50
      (1/1000)).streams.getD 0 default) [feComp] - 100| ≤ 1/10 := by
  refine ⟨?_, ?_, ?_, ?_⟩ <;> with_unfolding_all decide

/-- C7 amended: in the converged result every stream's active-component
percentage sum is within 0.1 of 100 or is not positive (the normalizer skips
streams whose percentage sum is ≤ 0, which includes — but is not limited
to — streams with zero solid flow). -/
theorem C7_amended_normalization (equipments : List Equipment)
    (flowLines : List FlowLine) (mineralComponents : List MineralComponent)
    (maxIterations : ℕ) (tolerance : ℚ)
    (hconv : (solveIterativeMassBalance equipments flowLines mineralComponents
      maxIterations tolerance).iterativeResult.converged = true) :
    ∀ t ∈ (solveIterativeMassBalance equipments flowLines mineralComponents
        maxIterations tolerance).streams,
      |pctSum t (mineralComponents.filter (·.isActive)) - 100| ≤ 1/10 ∨
      pctSum t (mineralComponents.filter (·.isActive)) ≤ 0 := by
  obtain ⟨s3, hs3⟩ := solveLoop_converged_normalized equipments
    (propagateStreamData flowLines mineralComponents)
    (mineralComponents.filter (·.isActive)) tolerance maxIterations
    ((propagateStreamData flowLines mineralComponents).map
      (convertToDetailedStream · (mineralComponents.filter (·.isActive)))) 0 hconv
  intro t ht
  have hts : t ∈ normalizeStreamCompositions s3 (mineralComponents.filter (·.isActive)) := by
    rw [← hs3]
    exact ht
  exact normalized_pctSum _ s3 t hts

/-- Witness for C7's amended claim at a converging concrete circuit. -/
theorem C7_amended_normalization_witness :
    (solveIterativeMassBalance [] [exFeLine] [feComp] 50
      (1/1000)).iterativeResult.converged = true ∧
    (∀ t ∈ (solveIterativeMassBalance [] [exFeLine] [feComp] 50 (1/1000)).streams,
      |pctSum t ([feComp].filter (·.isActive)) - 100| ≤ 1/10 ∨
      pctSum t ([feComp].filter (·.isActive)) ≤ 0) :=
  ⟨by with_unfolding_all decide,
   C7_amended_normalization [] [exFeLine] [feComp] 50 (1/1000)
     (by with_unfolding_all decide)⟩

/-! ## C5: bounded termination and honest converged flag -/

/-- The loop executes at most `fuel` further iterations. -/
theorem solveLoop_iterations_le (equipments : List Equipment) (pfl : List FlowLine)
    (acomps : List MineralComponent) (tolerance : ℚ) :
    ∀ (fuel : ℕ) (streams : List DetailedStream) (iter : ℕ),
    (solveLoop equipments pfl acomps tolerance fuel streams iter).iterations ≤ iter + fuel := by
  intro fuel
  induction fuel with
  | zero => intro streams iter; simp [solveLoop]
  | succ n ih =>
    intro streams iter
    simp only [solveLoop]
    by_cases hc : (checkConvergence (normalizeStreamCompositions
        (applyGlobalMassBalanceWithClosure (processEquipments equipments pfl acomps
          (applyMassBalanceClosure streams pfl acomps)) pfl acomps) acomps) pfl acomps
        tolerance).converged = true
    · rw [if_pos hc]
      dsimp only
      omega
    · rw [if_neg hc]
      have := ih (normalizeStreamCompositions (applyGlobalMassBalanceWithClosure
        (processEquipments equipments pfl acomps (applyMassBalanceClosure streams pfl
          acomps)) pfl acomps) acomps) (iter + 1)
      omega

/-- If the loop ran (fuel ≥ 1) and reports non-convergence, the convergence
test fails on the returned stream set. -/
theorem solveLoop_not_converged_check (equipments : List Equipment) (pfl : List FlowLine)
    (acomps : List MineralComponent) (tolerance : ℚ) :
    ∀ (fuel : ℕ) (streams : List DetailedStream) (iter : ℕ), 1 ≤ fuel →
    (solveLoop equipments pfl acomps tolerance fuel streams iter).converged = false →
    (checkConvergence (solveLoop equipments pfl acomps tolerance fuel streams
      iter).streams pfl acomps tolerance).converged = false := by
  intro fuel
  induction fuel with
  | zero => intro streams iter h; omega
  | succ n ih =>
    intro streams iter _ h
    simp only [solveLoop] at h ⊢
    by_cases hc : (checkConvergence (normalizeStreamCompositions
        (applyGlobalMassBalanceWithClosure (processEquipments equipments pfl acomps
          (applyMassBalanceClosure streams pfl acomps)) pfl acomps) acomps) pfl acomps
        tolerance).converged = true
    · rw [if_pos hc] at h
      exact absurd h (by simp)
    · rw [if_neg hc] at h ⊢
      rcases Nat.eq_zero_or_pos n with rfl | hn
      · simp only [solveLoop]
        exact Bool.eq_false_iff.mpr (fun hcc => hc hcc)
      · exact ih _ _ hn h

/-- C5: the solver always terminates with `iterations ≤ maxIterations`
(the embedding is a total function, so no exception is possible), and when
at least one iteration is allowed the returned `converged` flag is exactly
the convergence test evaluated on the returned stream set — in both the
converged and the exhausted terminal state the current streams are
returned with the flag reflecting the remaining error. -/
theorem C5_bounded_termination_honest_flag (equipments : List Equipment)
    (flowLines : List FlowLine) (mineralComponents : List MineralComponent)
    (maxIterations : ℕ) (tolerance : ℚ) (hiter : 1 ≤ maxIterations) :
    (solveIterativeMassBalance equipments flowLines mineralComponents maxIterations
      tolerance).iterativeResult.iterations ≤ maxIterations ∧
    ((solveIterativeMassBalance equipments flowLines mineralComponents maxIterations
        tolerance).iterativeResult.converged = true ↔
      (checkConvergence (solveIterativeMassBalance equipments flowLines mineralComponents
          maxIterations tolerance).streams
        (solveIterativeMassBalance equipments flowLines mineralComponents maxIterations
          tolerance).propagatedFlowLines
        (mineralComponents.filter (·.isActive)) tolerance).converged = true) := by
  constructor
  · have h1 := solveLoop_iterations_le equipments
      (propagateStreamData flowLines mineralComponents)
      (mineralComponents.filter (·.isActive)) tolerance maxIterations
      ((propagateStreamData flowLines mineralComponents).map
        (convertToDetailedStream · (mineralComponents.filter (·.isActive)))) 0
    have h0 : (solveIterativeMassBalance equipments flowLines mineralComponents
        maxIterations tolerance).iterativeResult.iterations
        = (solveLoop equipments (propagateStreamData flowLines mineralComponents)
          (mineralComponents.filter (·.isActive)) tolerance maxIterations
          ((propagateStreamData flowLines mineralComponents).map
            (convertToDetailedStream · (mineralComponents.filter (·.isActive)))) 0).iterations :=
      rfl
    rw [h0]
    simpa using h1
  · constructor
    · intro h
      exact solveLoop_converged_check equipments
        (propagateStreamData flowLines mineralComponents)
        (mineralComponents.filter (·.isActive)) tolerance maxIterations
        ((propagateStreamData flowLines mineralComponents).map
          (convertToDetailedStream · (mineralComponents.filter (·.isActive)))) 0 h
    · intro h
      by_contra hne
      have hfalse : (solveIterativeMassBalance equipments flowLines mineralComponents
          maxIterations tolerance).iterativeResult.converged = false :=
        Bool.eq_false_iff.mpr hne
      have := solveLoop_not_converged_check equipments
        (propagateStreamData flowLines mineralComponents)
        (mineralComponents.filter (·.isActive)) tolerance maxIterations
        ((propagateStreamData flowLines mineralComponents).map
          (convertToDetailedStream · (mineralComponents.filter (·.isActive)))) 0
        hiter hfalse
      have h2 : (checkConvergence (solveIterativeMassBalance equipments flowLines
          mineralComponents maxIterations tolerance).streams
          (solveIterativeMassBalance equipments flowLines mineralComponents maxIterations
            tolerance).propagatedFlowLines
          (mineralComponents.filter (·.isActive)) tolerance).converged = false := this
      rw [h] at h2
      exact Bool.noConfusion h2

/-- Witness for C5: a circuit whose equipment id appears in no flow line
(the transfer functions never update its streams), three allowed
iterations. -/
theorem C5_bounded_termination_honest_flag_witness :
    1 ≤ 3 ∧
    ((solveIterativeMassBalance [exGhostEquipment] exC9FlowLines [feComp] 3
        (1/1000)).iterativeResult.iterations ≤ 3 ∧
    ((solveIterativeMassBalance [exGhostEquipment] exC9FlowLines [feComp] 3
        (1/1000)).iterativeResult.converged = true ↔
      (checkConvergence (solveIterativeMassBalance [exGhostEquipment] exC9FlowLines
          [feComp] 3 (1/1000)).streams
        (solveIterativeMassBalance [exGhostEquipment] exC9FlowLines [feComp] 3
          (1/1000)).propagatedFlowLines
        ([feComp].filter (·.isActive)) (1/1000)).converged = true)) :=
  ⟨by decide,
   C5_bounded_termination_honest_flag [exGhostEquipment] exC9FlowLines [feComp] 3
     (1/1000) (by decide)⟩

/-! ## C4: idempotence of propagateStreamData

The proof runs in stages.  `propPass` is the fold of `propStep` over all
indices.  One shows: (A) after any pass every line's flow rate is nonzero;
(B) after any pass, any line that has a boundary partner (a feed into its
source equipment, or a product out of its target equipment) has defined
grades; (C) after a pass over a state satisfying (A), any line with both an
empty component list and empty grades is a fixed point of `defaultFill`.
A state satisfying (A), (B) and (C) is left unchanged by a further pass, and
every `propLoop` result with fuel ≥ 2 satisfies them (or stopped at a
zero-change pass, which is literally the identity), so the second
application of `propagateStreamData` returns its input unchanged. -/

/-- Pointwise CASE 1 effect (identity when the branch guard fails). -/
def gFwd (fl os : FlowLine) : FlowLine :=
  if (fl.fromEquipment = none ∧ fl.toEquipment ≠ none) ∧ fwdFires fl os then
    copyFwd os fl
  else os

/-- Pointwise CASE 2 effect. -/
def gBwd (fl os : FlowLine) : FlowLine :=
  if (fl.fromEquipment ≠ none ∧ fl.toEquipment = none) ∧ bwdFires fl os then
    copyBwd os fl
  else os

/-- Folding `propStep` over an index list (so that `propPass` is the fold
over `range`). -/
def runSteps (acomps : List MineralComponent) (is : List ℕ) (p : List FlowLine × ℕ) :
    List FlowLine × ℕ :=
  is.foldl (propStep acomps) p

theorem propPass_eq_runSteps (acomps : List MineralComponent) (arr : List FlowLine) :
    propPass acomps arr = runSteps acomps (List.range arr.length) (arr, 0) := rfl

/-- A line read at the start of its iteration with both components and
grades missing/empty. -/
def bothEmptyLine (fl : FlowLine) : Prop :=
  compsEmpty fl.components = true ∧ gradesEmpty fl.componentGrades = true

theorem map_id_of {α : Type} (f : α → α) (l : List α) (h : ∀ x ∈ l, f x = x) :
    l.map f = l := by
  induction l with
  | nil => rfl
  | cons hd tl ih =>
    rw [List.map_cons, h hd (List.mem_cons_self hd tl),
      ih (fun x hx => h x (List.mem_cons_of_mem hd hx))]

theorem set_get?_self {α : Type} (l : List α) (i : ℕ) (x : α) (h : l.get? i = some x) :
    l.set i x = l := by
  induction l generalizing i with
  | nil => rfl
  | cons hd tl ih =>
    cases i with
    | zero => rw [List.get?] at h; cases h; rfl
    | succ n =>
      rw [List.get?] at h
      show hd :: tl.set n x = hd :: tl
      rw [ih n h]

theorem ite_set_get?_ne {c : Prop} [Decidable c] (arr : List FlowLine) (v : FlowLine)
    (i k : ℕ) (h : k ≠ i) : (if c then arr.set i v else arr).get? k = arr.get? k := by
  split
  · exact List.get?_set_ne _ _ (fun hc => h hc.symm)
  · rfl

/-- `fwdMap` is the pointwise `gFwd`. -/
theorem fwdMap_get? (fl : FlowLine) (arr : List FlowLine) (k : ℕ) :
    (fwdMap fl arr).get? k = (arr.get? k).map (gFwd fl) := by
  unfold fwdMap
  split
  · next h =>
    rw [List.get?_map]
    cases arr.get? k with
    | none => rfl
    | some os => simp only [Option.map_some']; simp [gFwd, h]
  · next h =>
    cases arr.get? k with
    | none => rfl
    | some os =>
      simp only [Option.map_some']
      unfold gFwd
      rw [if_neg (fun hc => h hc.1)]

/-- `bwdMap` is the pointwise `gBwd`. -/
theorem bwdMap_get? (fl : FlowLine) (arr : List FlowLine) (k : ℕ) :
    (bwdMap fl arr).get? k = (arr.get? k).map (gBwd fl) := by
  unfold bwdMap
  split
  · next h =>
    rw [List.get?_map]
    cases arr.get? k with
    | none => rfl
    | some os => simp only [Option.map_some']; simp [gBwd, h]
  · next h =>
    cases arr.get? k with
    | none => rfl
    | some os =>
      simp only [Option.map_some']
      unfold gBwd
      rw [if_neg (fun hc => h hc.1)]

theorem spread_ne_nil (base top : Dict) (h : top ≠ []) : dictSpread base top ≠ [] := by
  unfold dictSpread
  cases base with
  | nil =>
    simp only [List.map_nil, List.nil_append]
    have : top.filter (fun p => (dictFind? [] p.1).isNone) = top := by
      apply List.filter_eq_self.mpr
      intro p _
      rfl
    rw [this]
    exact h
  | cons b bs =>
    simp

/-- The sibling-sum flow estimate is never zero. -/
theorem estimateFlow_ne_zero (arr : List FlowLine) (fl : FlowLine) :
    estimateFlow arr fl ≠ 0 := by
  unfold estimateFlow
  cases fl.fromEquipment with
  | none => norm_num
  | some e =>
    dsimp only
    split
    · norm_num
    · next hne =>
      have hpos : 0 < ((arr.filter (fun v => v.toEquipment = some e ∧ 0 < v.flowRate)).map
          (·.flowRate)).sum := by
        apply List.sum_pos
        · intro x hx
          obtain ⟨v, hv, rfl⟩ := List.mem_map.mp hx
          have := List.of_mem_filter hv
          simp only [decide_eq_true_eq] at this
          exact this.2
        · intro hmap
          exact hne (List.map_eq_nil.mp hmap)
      exact ne_of_gt hpos

/-- `gFwd` keeps the connectivity fields. -/
theorem gFwd_static (fl os : FlowLine) :
    (gFwd fl os).fromEquipment = os.fromEquipment ∧
    (gFwd fl os).toEquipment = os.toEquipment ∧
    (gFwd fl os).id = os.id := by
  unfold gFwd
  split <;> exact ⟨rfl, rfl, rfl⟩

theorem gBwd_static (fl os : FlowLine) :
    (gBwd fl os).fromEquipment = os.fromEquipment ∧
    (gBwd fl os).toEquipment = os.toEquipment ∧
    (gBwd fl os).id = os.id := by
  unfold gBwd
  split <;> exact ⟨rfl, rfl, rfl⟩

theorem gFwd_flow_nz (fl os : FlowLine) (h : os.flowRate ≠ 0) :
    (gFwd fl os).flowRate ≠ 0 := by
  unfold gFwd
  split
  · show jsOr os.flowRate fl.flowRate ≠ 0
    rw [jsOr, if_neg h]
    exact h
  · exact h

theorem gBwd_flow_nz (fl os : FlowLine) (h : os.flowRate ≠ 0) :
    (gBwd fl os).flowRate ≠ 0 := by
  unfold gBwd
  split
  · show jsOr os.flowRate fl.flowRate ≠ 0
    rw [jsOr, if_neg h]
    exact h
  · exact h

theorem gFwd_grades_ne_none (fl os : FlowLine) (h : os.componentGrades ≠ none) :
    (gFwd fl os).componentGrades ≠ none := by
  unfold gFwd
  split
  · exact Option.noConfusion
  · exact h

theorem gBwd_grades_ne_none (fl os : FlowLine) (h : os.componentGrades ≠ none) :
    (gBwd fl os).componentGrades ≠ none := by
  unfold gBwd
  split
  · exact Option.noConfusion
  · exact h

theorem gFwd_comps_nonempty (fl os : FlowLine) (l : List String)
    (h : os.components = some l) (hl : l ≠ []) :
    ∃ m, (gFwd fl os).components = some m ∧ m ≠ [] := by
  unfold gFwd
  split
  · refine ⟨l, ?_, hl⟩
    show jsOrList os.components (jsOrList fl.components (some [])) = some l
    rw [h]
    rfl
  · exact ⟨l, h, hl⟩

theorem gBwd_comps_nonempty (fl os : FlowLine) (l : List String)
    (h : os.components = some l) (hl : l ≠ []) :
    ∃ m, (gBwd fl os).components = some m ∧ m ≠ [] := by
  unfold gBwd
  split
  · refine ⟨l, ?_, hl⟩
    show jsOrList os.components (jsOrList fl.components (some [])) = some l
    rw [h]
    rfl
  · exact ⟨l, h, hl⟩

theorem gFwd_grades_nonempty (fl os : FlowLine) (g : Dict)
    (h : os.componentGrades = some g) (hg : g ≠ []) :
    ∃ g2, (gFwd fl os).componentGrades = some g2 ∧ g2 ≠ [] := by
  unfold gFwd
  split
  · refine ⟨dictSpread (fl.componentGrades.getD []) (os.componentGrades.getD []), rfl, ?_⟩
    apply spread_ne_nil
    rw [h]
    exact hg
  · exact ⟨g, h, hg⟩

theorem gBwd_grades_nonempty (fl os : FlowLine) (g : Dict)
    (h : os.componentGrades = some g) (hg : g ≠ []) :
    ∃ g2, (gBwd fl os).componentGrades = some g2 ∧ g2 ≠ [] := by
  unfold gBwd
  split
  · refine ⟨dictSpread (fl.componentGrades.getD []) (os.componentGrades.getD []), rfl, ?_⟩
    apply spread_ne_nil
    rw [h]
    exact hg
  · exact ⟨g, h, hg⟩

/-- A line with nonzero flow and defined grades is not a CASE 1/2 target. -/
theorem gFwd_id_of_filled (fl os : FlowLine) (h1 : os.flowRate ≠ 0)
    (h2 : os.componentGrades ≠ none) : gFwd fl os = os := by
  unfold gFwd
  rw [if_neg]
  rintro ⟨-, hf⟩
  unfold fwdFires innerDeficient at hf
  simp only [Bool.and_eq_true, decide_eq_true_eq, Bool.or_eq_true] at hf
  rcases hf.2.2 with h | h
  · exact h1 h
  · exact h2 h

theorem gBwd_id_of_filled (fl os : FlowLine) (h1 : os.flowRate ≠ 0)
    (h2 : os.componentGrades ≠ none) : gBwd fl os = os := by
  unfold gBwd
  rw [if_neg]
  rintro ⟨-, hf⟩
  unfold bwdFires innerDeficient at hf
  simp only [Bool.and_eq_true, decide_eq_true_eq, Bool.or_eq_true] at hf
  rcases hf.2.2 with h | h
  · exact h1 h
  · exact h2 h

/-- A line never copies onto itself. -/
theorem gFwd_own (fl : FlowLine) : gFwd fl fl = fl := by
  unfold gFwd
  rw [if_neg]
  rintro ⟨⟨hfrom, hto⟩, hf⟩
  unfold fwdFires at hf
  simp only [Bool.and_eq_true, decide_eq_true_eq] at hf
  exact hto (hfrom ▸ hf.1.symm)

theorem gBwd_own (fl : FlowLine) : gBwd fl fl = fl := by
  unfold gBwd
  rw [if_neg]
  rintro ⟨⟨hfrom, hto⟩, hf⟩
  unfold bwdFires at hf
  simp only [Bool.and_eq_true, decide_eq_true_eq] at hf
  exact hfrom (hto ▸ hf.1.symm)

/-- CASE 3's write is idempotent. -/
theorem defaultFill_idem (acomps : List MineralComponent) (fl : FlowLine) :
    defaultFill acomps (defaultFill acomps fl) = defaultFill acomps fl := rfl

theorem fwdMap_length (fl : FlowLine) (arr : List FlowLine) :
    (fwdMap fl arr).length = arr.length := by
  unfold fwdMap; split; exacts [List.length_map _ _, rfl]

theorem bwdMap_length (fl : FlowLine) (arr : List FlowLine) :
    (bwdMap fl arr).length = arr.length := by
  unfold bwdMap; split; exacts [List.length_map _ _, rfl]

theorem fillCase3_length (acomps : List MineralComponent) (fl : FlowLine) (i : ℕ)
    (arr : List FlowLine) : (fillCase3 acomps fl i arr).length = arr.length := by
  unfold fillCase3; split; exacts [List.length_set _ _ _, rfl]

theorem fillCase4_length (fl : FlowLine) (i : ℕ) (arr : List FlowLine) :
    (fillCase4 fl i arr).length = arr.length := by
  unfold fillCase4; split; exacts [List.length_set _ _ _, rfl]

/-- A step leaves the array length unchanged. -/
theorem propStep_length (acomps : List MineralComponent) (p : List FlowLine × ℕ) (i : ℕ) :
    (propStep acomps p i).1.length = p.1.length := by
  unfold propStep
  cases h : p.1.get? i with
  | none => rfl
  | some fl =>
    dsimp only
    rw [fillCase4_length, fillCase3_length, bwdMap_length, fwdMap_length]

/-- A step on a missing index is the identity. -/
theorem propStep_noneI (acomps : List MineralComponent) (p : List FlowLine × ℕ) (i : ℕ)
    (h : p.1.get? i = none) : propStep acomps p i = p := by
  unfold propStep
  rw [h]

/-- At an index other than its own, a step acts pointwise by the CASE 1 and
CASE 2 copy functions. -/
theorem propStep_get?_other (acomps : List MineralComponent) (p : List FlowLine × ℕ)
    (i k : ℕ) (fl : FlowLine) (h : p.1.get? i = some fl) (hk : k ≠ i) :
    (propStep acomps p i).1.get? k = (p.1.get? k).map (fun os => gBwd fl (gFwd fl os)) := by
  unfold propStep
  rw [h]
  dsimp only
  unfold fillCase4
  rw [ite_set_get?_ne _ _ _ _ hk]
  unfold fillCase3
  rw [ite_set_get?_ne _ _ _ _ hk]
  rw [bwdMap_get?, fwdMap_get?, Option.map_map]
  rfl

/-- At its own index, a step yields: the CASE 4 flow fill when the line's
flow was zero; the CASE 3 default fill when the flow was nonzero and the
line was empty; the unchanged line otherwise. -/
theorem propStep_get?_own (acomps : List MineralComponent) (p : List FlowLine × ℕ)
    (i : ℕ) (fl : FlowLine) (h : p.1.get? i = some fl) :
    ∃ v, (propStep acomps p i).1.get? i = some v ∧
      ((fl.flowRate = 0 ∧ v.flowRate = estimateFlow
            (fillCase3 acomps fl i (bwdMap fl (fwdMap fl p.1))) fl
          ∧ v.components = fl.components ∧ v.componentGrades = fl.componentGrades
          ∧ v.fromEquipment = fl.fromEquipment ∧ v.toEquipment = fl.toEquipment)
       ∨ (fl.flowRate ≠ 0 ∧ bothEmptyLine fl ∧ v = defaultFill acomps fl)
       ∨ (fl.flowRate ≠ 0 ∧ ¬ bothEmptyLine fl ∧ v = fl)) := by
  have ha2 : (bwdMap fl (fwdMap fl p.1)).get? i = some fl := by
    rw [bwdMap_get?, fwdMap_get?, h]
    simp only [Option.map_some']
    rw [gFwd_own, gBwd_own]
  have hlt2 : i < (bwdMap fl (fwdMap fl p.1)).length := (List.get?_eq_some.mp ha2).1
  unfold propStep
  rw [h]
  dsimp only
  by_cases h4 : fl.flowRate = 0
  · refine ⟨flowFill (fillCase3 acomps fl i (bwdMap fl (fwdMap fl p.1))) fl, ?_, ?_⟩
    · unfold fillCase4
      rw [if_pos h4]
      apply List.get?_set_eq_of_lt
      rw [fillCase3_length]
      exact hlt2
    · exact Or.inl ⟨h4, rfl, rfl, rfl, rfl, rfl⟩
  · unfold fillCase4
    rw [if_neg h4]
    by_cases h3 : bothEmptyLine fl
    · refine ⟨defaultFill acomps fl, ?_, Or.inr (Or.inl ⟨h4, h3, rfl⟩)⟩
      unfold fillCase3
      rw [if_pos (show compsEmpty fl.components = true ∧ gradesEmpty fl.componentGrades = true
        from h3)]
      exact List.get?_set_eq_of_lt _ hlt2
    · refine ⟨fl, ?_, Or.inr (Or.inr ⟨h4, h3, rfl⟩)⟩
      unfold fillCase3
      rw [if_neg (show ¬(compsEmpty fl.components = true ∧ gradesEmpty fl.componentGrades = true)
        from h3)]
      exact ha2

theorem propStep_get?_none (acomps : List MineralComponent) (p : List FlowLine × ℕ)
    (i k : ℕ) (h : p.1.get? k = none) : (propStep acomps p i).1.get? k = none := by
  rw [List.get?_eq_none] at h ⊢
  rw [propStep_length]
  exact h

/-- A step keeps every line's connectivity fields. -/
theorem propStep_fromTo (acomps : List MineralComponent) (p : List FlowLine × ℕ)
    (i k : ℕ) :
    ((propStep acomps p i).1.get? k).map (fun u => (u.fromEquipment, u.toEquipment))
      = (p.1.get? k).map (fun u => (u.fromEquipment, u.toEquipment)) := by
  cases h : p.1.get? i with
  | none => rw [propStep_noneI acomps p i h]
  | some fl =>
    by_cases hk : k = i
    · subst hk
      obtain ⟨v, hv, hcase⟩ := propStep_get?_own acomps p k fl h
      rw [hv, h]
      rcases hcase with ⟨-, -, -, -, hf, ht⟩ | ⟨-, -, rfl⟩ | ⟨-, -, rfl⟩
      · simp only [Option.map_some']
        rw [hf, ht]
      · rfl
      · rfl
    · rw [propStep_get?_other acomps p i k fl h hk]
      cases p.1.get? k with
      | none => rfl
      | some w =>
        simp only [Option.map_some']
        rw [(gBwd_static fl (gFwd fl w)).1, (gBwd_static fl (gFwd fl w)).2.1,
          (gFwd_static fl w).1, (gFwd_static fl w).2.1]

theorem runSteps_cons (acomps : List MineralComponent) (i : ℕ) (is : List ℕ)
    (p : List FlowLine × ℕ) :
    runSteps acomps (i :: is) p = runSteps acomps is (propStep acomps p i) := rfl

theorem runSteps_length (acomps : List MineralComponent) (is : List ℕ)
    (p : List FlowLine × ℕ) : (runSteps acomps is p).1.length = p.1.length := by
  induction is generalizing p with
  | nil => rfl
  | cons i rest ih => rw [runSteps_cons, ih, propStep_length]

theorem runSteps_fromTo (acomps : List MineralComponent) (is : List ℕ)
    (p : List FlowLine × ℕ) (k : ℕ) :
    ((runSteps acomps is p).1.get? k).map (fun u => (u.fromEquipment, u.toEquipment))
      = (p.1.get? k).map (fun u => (u.fromEquipment, u.toEquipment)) := by
  induction is generalizing p with
  | nil => rfl
  | cons i rest ih => rw [runSteps_cons, ih, propStep_fromTo]

theorem compsEmpty_false {c : Option (List String)} (h : compsEmpty c = false) :
    ∃ l, c = some l ∧ l ≠ [] := by
  cases c with
  | none => simp [compsEmpty] at h
  | some l =>
    cases l with
    | nil => simp [compsEmpty] at h
    | cons a as => exact ⟨a :: as, rfl, List.cons_ne_nil a as⟩

theorem gradesEmpty_false {g : Option Dict} (h : gradesEmpty g = false) :
    ∃ d, g = some d ∧ d ≠ [] := by
  cases g with
  | none => simp [gradesEmpty] at h
  | some d =>
    cases d with
    | nil => simp [gradesEmpty] at h
    | cons a as => exact ⟨a :: as, rfl, List.cons_ne_nil a as⟩

theorem defaultFill_nil (fl : FlowLine) :
    defaultFill [] fl = { fl with components := some [], componentGrades := some [] } := by
  unfold defaultFill
  dsimp only [List.foldl_nil, List.map_nil]
  have h0 : dictValuesSum ([] : Dict) = 0 := rfl
  rw [h0, if_neg (lt_irrefl (0 : ℚ))]

/-- Invariant (A): every line's flow rate is nonzero. -/
def allA (arr : List FlowLine) : Prop :=
  ∀ k v, arr.get? k = some v → v.flowRate ≠ 0

theorem propStep_allA (acomps : List MineralComponent) (p : List FlowLine × ℕ)
    (i : ℕ) (h : allA p.1) : allA (propStep acomps p i).1 := by
  intro k v hv
  cases hfl : p.1.get? i with
  | none =>
    rw [propStep_noneI acomps p i hfl] at hv
    exact h k v hv
  | some fl =>
    by_cases hk : k = i
    · subst hk
      obtain ⟨w, hw, hcase⟩ := propStep_get?_own acomps p k fl hfl
      rw [hw] at hv
      obtain rfl : w = v := Option.some.inj hv
      rcases hcase with ⟨-, hr, -, -, -, -⟩ | ⟨h4, -, rfl⟩ | ⟨h4, -, rfl⟩
      · rw [hr]
        exact estimateFlow_ne_zero _ _
      · exact h4
      · exact h4
    · rw [propStep_get?_other acomps p i k fl hfl hk] at hv
      obtain ⟨w, hw, rfl⟩ := Option.map_eq_some'.mp hv
      exact gBwd_flow_nz fl _ (gFwd_flow_nz fl w (h k w hw))

/-- The lines at index `k` all satisfy `Φ`. -/
def atIdx (Φ : FlowLine → Prop) (k : ℕ) (arr : List FlowLine) : Prop :=
  ∀ v, arr.get? k = some v → Φ v

/-- Master preservation lemma: a pointwise property preserved by every step
(under a step-invariant precondition) is preserved by a fold of steps. -/
theorem runSteps_pres (acomps : List MineralComponent) (Pre : List FlowLine → Prop)
    (hPre : ∀ p i, Pre p.1 → Pre (propStep acomps p i).1)
    (Φ : FlowLine → Prop) (k : ℕ)
    (hstep : ∀ p i, Pre p.1 → atIdx Φ k p.1 → atIdx Φ k (propStep acomps p i).1) :
    ∀ is p, Pre p.1 → atIdx Φ k p.1 → atIdx Φ k (runSteps acomps is p).1 := by
  intro is
  induction is with
  | nil => intro p _ h; exact h
  | cons i rest ih =>
    intro p hpre h
    rw [runSteps_cons]
    exact ih (propStep acomps p i) (hPre p i hpre) (hstep p i hpre h)

/-- Master establishment lemma: a pointwise property established at index
`k` by the step at index `j`, and preserved by every step, holds at `k`
after any fold of steps that includes `j`. -/
theorem runSteps_est (acomps : List MineralComponent) (Pre : List FlowLine → Prop)
    (hPre : ∀ p i, Pre p.1 → Pre (propStep acomps p i).1)
    (Φ : FlowLine → Prop) (k j : ℕ)
    (hstep : ∀ p i, Pre p.1 → atIdx Φ k p.1 → atIdx Φ k (propStep acomps p i).1)
    (hest : ∀ p, Pre p.1 → atIdx Φ k (propStep acomps p j).1) :
    ∀ is p, Pre p.1 → j ∈ is → atIdx Φ k (runSteps acomps is p).1 := by
  intro is
  induction is with
  | nil => intro p _ hj; exact absurd hj (List.not_mem_nil j)
  | cons i rest ih =>
    intro p hpre hj
    rw [runSteps_cons]
    by_cases hjr : j ∈ rest
    · exact ih (propStep acomps p i) (hPre p i hpre) hjr
    · have hji : j = i := by
        rcases List.mem_cons.mp hj with h | h
        · exact h
        · exact absurd h hjr
      subst hji
      exact runSteps_pres acomps Pre hPre Φ k hstep rest (propStep acomps p j)
        (hPre p j hpre) (hest p hpre)

theorem propPass_length (acomps : List MineralComponent) (arr : List FlowLine) :
    (propPass acomps arr).1.length = arr.length := by
  rw [propPass_eq_runSteps, runSteps_length]

theorem propStep_flowA (acomps : List MineralComponent) (p : List FlowLine × ℕ)
    (i k : ℕ) (h : atIdx (fun v => v.flowRate ≠ 0) k p.1) :
    atIdx (fun v => v.flowRate ≠ 0) k (propStep acomps p i).1 := by
  intro v hv
  cases hfl : p.1.get? i with
  | none =>
    rw [propStep_noneI acomps p i hfl] at hv
    exact h v hv
  | some fl =>
    by_cases hk : k = i
    · subst hk
      obtain ⟨w, hw, hcase⟩ := propStep_get?_own acomps p k fl hfl
      rw [hw] at hv
      obtain rfl : w = v := Option.some.inj hv
      rcases hcase with ⟨-, hr, -, -, -, -⟩ | ⟨h4, -, rfl⟩ | ⟨h4, -, rfl⟩
      · rw [hr]
        exact estimateFlow_ne_zero _ _
      · exact h4
      · exact h4
    · rw [propStep_get?_other acomps p i k fl hfl hk] at hv
      obtain ⟨w, hw, rfl⟩ := Option.map_eq_some'.mp hv
      exact gBwd_flow_nz fl _ (gFwd_flow_nz fl w (h w hw))

theorem propStep_flowA_est (acomps : List MineralComponent) (p : List FlowLine × ℕ)
    (k : ℕ) : atIdx (fun v => v.flowRate ≠ 0) k (propStep acomps p k).1 := by
  intro v hv
  cases hfl : p.1.get? k with
  | none =>
    rw [propStep_get?_none acomps p k k hfl] at hv
    exact absurd hv (Option.noConfusion)
  | some fl =>
    obtain ⟨w, hw, hcase⟩ := propStep_get?_own acomps p k fl hfl
    rw [hw] at hv
    obtain rfl : w = v := Option.some.inj hv
    rcases hcase with ⟨-, hr, -, -, -, -⟩ | ⟨h4, -, rfl⟩ | ⟨h4, -, rfl⟩
    · rw [hr]
      exact estimateFlow_ne_zero _ _
    · exact h4
    · exact h4

/-- (A) After one pass, every line's flow rate is nonzero. -/
theorem pass_A (acomps : List MineralComponent) (arr : List FlowLine) :
    allA (propPass acomps arr).1 := by
  intro k v hv
  have hk : k < arr.length := by
    have h1 : k < (propPass acomps arr).1.length := (List.get?_eq_some.mp hv).1
    rwa [propPass_length] at h1
  rw [propPass_eq_runSteps] at hv
  exact runSteps_est acomps (fun _ => True) (fun _ _ _ => trivial)
    (fun v => v.flowRate ≠ 0) k k
    (fun p i _ h => propStep_flowA acomps p i k h)
    (fun p _ => propStep_flowA_est acomps p k)
    (List.range arr.length) (arr, 0) trivial (List.mem_range.mpr hk) v hv

theorem ft_transfer {o1 o2 : Option FlowLine} (u : FlowLine)
    (hmap : o1.map (fun x => (x.fromEquipment, x.toEquipment))
      = o2.map (fun x => (x.fromEquipment, x.toEquipment)))
    (h : o1 = some u) :
    ∃ u0, o2 = some u0 ∧ u0.fromEquipment = u.fromEquipment
      ∧ u0.toEquipment = u.toEquipment := by
  subst h
  cases o2 with
  | none => simp at hmap
  | some u0 =>
    simp only [Option.map_some'] at hmap
    obtain ⟨h1, h2⟩ := Prod.ext_iff.mp (Option.some.inj hmap)
    exact ⟨u0, rfl, h1.symm, h2.symm⟩

theorem fwdFires_of_none (fl os : FlowLine) (h1 : os.fromEquipment = fl.toEquipment)
    (hg : os.componentGrades = none) : fwdFires fl os = true := by
  unfold fwdFires deficient innerDeficient
  simp only [decide_eq_true_eq, Bool.or_eq_true, Bool.and_eq_true]
  refine ⟨h1, Or.inr ?_, Or.inr hg⟩
  rw [hg]
  rfl

theorem bwdFires_of_none (fl os : FlowLine) (h1 : os.toEquipment = fl.fromEquipment)
    (hg : os.componentGrades = none) : bwdFires fl os = true := by
  unfold bwdFires deficient innerDeficient
  simp only [decide_eq_true_eq, Bool.or_eq_true, Bool.and_eq_true]
  refine ⟨h1, Or.inr ?_, Or.inr hg⟩
  rw [hg]
  rfl

/-- A feed into an equipment leaves each of its outputs with defined grades. -/
theorem gFwd_partner_grades (fl os : FlowLine)
    (hfrom : fl.fromEquipment = none) (hto : fl.toEquipment ≠ none)
    (hmatch : os.fromEquipment = fl.toEquipment) :
    (gFwd fl os).componentGrades ≠ none := by
  by_cases hg : os.componentGrades = none
  · unfold gFwd
    rw [if_pos ⟨⟨hfrom, hto⟩, fwdFires_of_none fl os hmatch hg⟩]
    exact Option.noConfusion
  · unfold gFwd
    split
    · exact Option.noConfusion
    · exact hg

theorem gBwd_partner_grades (fl os : FlowLine)
    (hfrom : fl.fromEquipment ≠ none) (hto : fl.toEquipment = none)
    (hmatch : os.toEquipment = fl.fromEquipment) :
    (gBwd fl os).componentGrades ≠ none := by
  by_cases hg : os.componentGrades = none
  · unfold gBwd
    rw [if_pos ⟨⟨hfrom, hto⟩, bwdFires_of_none fl os hmatch hg⟩]
    exact Option.noConfusion
  · unfold gBwd
    split
    · exact Option.noConfusion
    · exact hg

/-- Every step preserves grade-definedness at every index. -/
theorem propStep_gradesB (acomps : List MineralComponent) (p : List FlowLine × ℕ)
    (i k : ℕ) (h : atIdx (fun v => v.componentGrades ≠ none) k p.1) :
    atIdx (fun v => v.componentGrades ≠ none) k (propStep acomps p i).1 := by
  intro v hv
  cases hfl : p.1.get? i with
  | none =>
    rw [propStep_noneI acomps p i hfl] at hv
    exact h v hv
  | some fl =>
    by_cases hk : k = i
    · subst hk
      obtain ⟨w, hw, hcase⟩ := propStep_get?_own acomps p k fl hfl
      rw [hw] at hv
      obtain rfl : w = v := Option.some.inj hv
      rcases hcase with ⟨-, -, -, hg, -, -⟩ | ⟨-, -, rfl⟩ | ⟨-, -, rfl⟩
      · rw [hg]
        exact h fl hfl
      · exact Option.noConfusion
      · exact h w hfl
    · rw [propStep_get?_other acomps p i k fl hfl hk] at hv
      obtain ⟨w, hw, rfl⟩ := Option.map_eq_some'.mp hv
      exact gBwd_grades_ne_none fl _ (gFwd_grades_ne_none fl w (h w hw))

/-- Precondition for the forward (CASE 1) establishment: index `j` holds a
feed line into equipment `e` and index `k` a line out of `e`. -/
def PreF (j k : ℕ) (e : String) (arr : List FlowLine) : Prop :=
  j < arr.length ∧
  (∀ u, arr.get? j = some u → u.fromEquipment = none ∧ u.toEquipment = some e) ∧
  (∀ w, arr.get? k = some w → w.fromEquipment = some e)

/-- Precondition for the backward (CASE 2) establishment. -/
def PreB (j k : ℕ) (e : String) (arr : List FlowLine) : Prop :=
  j < arr.length ∧
  (∀ u, arr.get? j = some u → u.fromEquipment = some e ∧ u.toEquipment = none) ∧
  (∀ w, arr.get? k = some w → w.toEquipment = some e)

theorem propStep_PreF (acomps : List MineralComponent) (p : List FlowLine × ℕ)
    (i j k : ℕ) (e : String) (h : PreF j k e p.1) : PreF j k e (propStep acomps p i).1 := by
  obtain ⟨hlt, hj, hk⟩ := h
  refine ⟨by rw [propStep_length]; exact hlt, ?_, ?_⟩
  · intro u hu
    obtain ⟨u0, hu0, hf, ht⟩ := ft_transfer u (propStep_fromTo acomps p i j) hu
    obtain ⟨h1, h2⟩ := hj u0 hu0
    exact ⟨hf ▸ h1, ht ▸ h2⟩
  · intro w hw
    obtain ⟨w0, hw0, hf, -⟩ := ft_transfer w (propStep_fromTo acomps p i k) hw
    exact hf ▸ hk w0 hw0

theorem propStep_PreB (acomps : List MineralComponent) (p : List FlowLine × ℕ)
    (i j k : ℕ) (e : String) (h : PreB j k e p.1) : PreB j k e (propStep acomps p i).1 := by
  obtain ⟨hlt, hj, hk⟩ := h
  refine ⟨by rw [propStep_length]; exact hlt, ?_, ?_⟩
  · intro u hu
    obtain ⟨u0, hu0, hf, ht⟩ := ft_transfer u (propStep_fromTo acomps p i j) hu
    obtain ⟨h1, h2⟩ := hj u0 hu0
    exact ⟨hf ▸ h1, ht ▸ h2⟩
  · intro w hw
    obtain ⟨w0, hw0, -, ht⟩ := ft_transfer w (propStep_fromTo acomps p i k) hw
    exact ht ▸ hk w0 hw0

theorem propStep_estF (acomps : List MineralComponent) (p : List FlowLine × ℕ)
    (j k : ℕ) (e : String) (h : PreF j k e p.1) :
    atIdx (fun v => v.componentGrades ≠ none) k (propStep acomps p j).1 := by
  obtain ⟨hlt, hj, hk⟩ := h
  intro v hv
  have hfl0 : p.1.get? j = some (p.1.get ⟨j, hlt⟩) := List.get?_eq_get hlt
  obtain ⟨h1, h2⟩ := hj _ hfl0
  by_cases hkj : k = j
  · subst hkj
    have h3 := hk _ hfl0
    rw [h1] at h3
    exact absurd h3 (Option.noConfusion)
  · rw [propStep_get?_other acomps p j k _ hfl0 hkj] at hv
    obtain ⟨w, hw, rfl⟩ := Option.map_eq_some'.mp hv
    apply gBwd_grades_ne_none
    apply gFwd_partner_grades _ w h1
      (fun hc => Option.noConfusion (h2.symm.trans hc))
    rw [h2]
    exact hk w hw

theorem propStep_estB (acomps : List MineralComponent) (p : List FlowLine × ℕ)
    (j k : ℕ) (e : String) (h : PreB j k e p.1) :
    atIdx (fun v => v.componentGrades ≠ none) k (propStep acomps p j).1 := by
  obtain ⟨hlt, hj, hk⟩ := h
  intro v hv
  have hfl0 : p.1.get? j = some (p.1.get ⟨j, hlt⟩) := List.get?_eq_get hlt
  obtain ⟨h1, h2⟩ := hj _ hfl0
  by_cases hkj : k = j
  · subst hkj
    have h3 := hk _ hfl0
    rw [h2] at h3
    exact absurd h3 (Option.noConfusion)
  · rw [propStep_get?_other acomps p j k _ hfl0 hkj] at hv
    obtain ⟨w, hw, rfl⟩ := Option.map_eq_some'.mp hv
    apply gBwd_partner_grades _ _
      (fun hc => Option.noConfusion (h1.symm.trans hc)) h2
    rw [(gFwd_static _ w).2.1, h1]
    exact hk w hw

theorem propPass_fromTo (acomps : List MineralComponent) (arr : List FlowLine) (n : ℕ) :
    ((propPass acomps arr).1.get? n).map (fun u => (u.fromEquipment, u.toEquipment))
      = (arr.get? n).map (fun u => (u.fromEquipment, u.toEquipment)) := by
  rw [propPass_eq_runSteps]
  exact runSteps_fromTo acomps _ _ n

/-- (B) After one pass, any line with a boundary partner has defined grades. -/
theorem pass_B (acomps : List MineralComponent) (arr : List FlowLine)
    (j k : ℕ) (fl v : FlowLine)
    (hj : (propPass acomps arr).1.get? j = some fl)
    (hk : (propPass acomps arr).1.get? k = some v)
    (hrel : (fl.fromEquipment = none ∧ fl.toEquipment ≠ none
        ∧ v.fromEquipment = fl.toEquipment) ∨
      (fl.fromEquipment ≠ none ∧ fl.toEquipment = none
        ∧ v.toEquipment = fl.fromEquipment)) :
    v.componentGrades ≠ none := by
  have hjlt : j < arr.length := by
    have h1 : j < (propPass acomps arr).1.length := (List.get?_eq_some.mp hj).1
    rwa [propPass_length] at h1
  obtain ⟨u0, hu0, huf, hut⟩ := ft_transfer fl (propPass_fromTo acomps arr j) hj
  obtain ⟨w0, hw0, hwf, hwt⟩ := ft_transfer v (propPass_fromTo acomps arr k) hk
  rcases hrel with ⟨h1, h2, h3⟩ | ⟨h1, h2, h3⟩
  · obtain ⟨e, he⟩ := Option.ne_none_iff_exists'.mp h2
    have hpre : PreF j k e arr := by
      refine ⟨hjlt, ?_, ?_⟩
      · intro u hu
        obtain rfl : u0 = u := Option.some.inj (hu0.symm.trans hu)
        exact ⟨huf.trans h1, hut.trans he⟩
      · intro w hw
        obtain rfl : w0 = w := Option.some.inj (hw0.symm.trans hw)
        rw [hwf, h3, he]
    have := runSteps_est acomps (PreF j k e)
      (fun p i hp => propStep_PreF acomps p i j k e hp)
      (fun v => v.componentGrades ≠ none) k j
      (fun p i _ hp => propStep_gradesB acomps p i k hp)
      (fun p hp => propStep_estF acomps p j k e hp)
      (List.range arr.length) (arr, 0) hpre (List.mem_range.mpr hjlt)
    rw [propPass_eq_runSteps] at hk
    exact this v hk
  · obtain ⟨e, he⟩ := Option.ne_none_iff_exists'.mp h1
    have hpre : PreB j k e arr := by
      refine ⟨hjlt, ?_, ?_⟩
      · intro u hu
        obtain rfl : u0 = u := Option.some.inj (hu0.symm.trans hu)
        exact ⟨huf.trans he, hut.trans h2⟩
      · intro w hw
        obtain rfl : w0 = w := Option.some.inj (hw0.symm.trans hw)
        rw [hwt, h3, he]
    have := runSteps_est acomps (PreB j k e)
      (fun p i hp => propStep_PreB acomps p i j k e hp)
      (fun v => v.componentGrades ≠ none) k j
      (fun p i _ hp => propStep_gradesB acomps p i k hp)
      (fun p hp => propStep_estB acomps p j k e hp)
      (List.range arr.length) (arr, 0) hpre (List.mem_range.mpr hjlt)
    rw [propPass_eq_runSteps] at hk
    exact this v hk

/-- Post-pass shape of a line's component data: a nonempty component list,
or nonempty grades, or (only when no component is active) both present but
empty. -/
def PsiC (acomps : List MineralComponent) (v : FlowLine) : Prop :=
  (∃ l, v.components = some l ∧ l ≠ []) ∨
  (∃ g, v.componentGrades = some g ∧ g ≠ []) ∨
  (v.components = some [] ∧ v.componentGrades = some [] ∧ acomps = [])

theorem gFwd_psi (acomps : List MineralComponent) (fl os : FlowLine)
    (h : PsiC acomps os) : PsiC acomps (gFwd fl os) := by
  rcases h with ⟨l, hl, hlne⟩ | ⟨g, hg, hgne⟩ | ⟨hc, hg, ha⟩
  · obtain ⟨m, hm, hmne⟩ := gFwd_comps_nonempty fl os l hl hlne
    exact Or.inl ⟨m, hm, hmne⟩
  · obtain ⟨g2, hg2, hg2ne⟩ := gFwd_grades_nonempty fl os g hg hgne
    exact Or.inr (Or.inl ⟨g2, hg2, hg2ne⟩)
  · unfold gFwd
    split
    · have hcomps : (copyFwd os fl).components = some [] := by
        show jsOrList os.components (jsOrList fl.components (some [])) = some []
        rw [hc]
        rfl
      have hgr : (copyFwd os fl).componentGrades
          = some (dictSpread (fl.componentGrades.getD []) []) := by
        show some (dictSpread (fl.componentGrades.getD []) (os.componentGrades.getD []))
          = _
        rw [hg]
        rfl
      by_cases hsp : dictSpread (fl.componentGrades.getD []) ([] : Dict) = []
      · exact Or.inr (Or.inr ⟨hcomps, by rw [hgr, hsp], ha⟩)
      · exact Or.inr (Or.inl ⟨_, hgr, hsp⟩)
    · exact Or.inr (Or.inr ⟨hc, hg, ha⟩)

theorem gBwd_psi (acomps : List MineralComponent) (fl os : FlowLine)
    (h : PsiC acomps os) : PsiC acomps (gBwd fl os) := by
  rcases h with ⟨l, hl, hlne⟩ | ⟨g, hg, hgne⟩ | ⟨hc, hg, ha⟩
  · obtain ⟨m, hm, hmne⟩ := gBwd_comps_nonempty fl os l hl hlne
    exact Or.inl ⟨m, hm, hmne⟩
  · obtain ⟨g2, hg2, hg2ne⟩ := gBwd_grades_nonempty fl os g hg hgne
    exact Or.inr (Or.inl ⟨g2, hg2, hg2ne⟩)
  · unfold gBwd
    split
    · have hcomps : (copyBwd os fl).components = some [] := by
        show jsOrList os.components (jsOrList fl.components (some [])) = some []
        rw [hc]
        rfl
      have hgr : (copyBwd os fl).componentGrades
          = some (dictSpread (fl.componentGrades.getD []) []) := by
        show some (dictSpread (fl.componentGrades.getD []) (os.componentGrades.getD []))
          = _
        rw [hg]
        rfl
      by_cases hsp : dictSpread (fl.componentGrades.getD []) ([] : Dict) = []
      · exact Or.inr (Or.inr ⟨hcomps, by rw [hgr, hsp], ha⟩)
      · exact Or.inr (Or.inl ⟨_, hgr, hsp⟩)
    · exact Or.inr (Or.inr ⟨hc, hg, ha⟩)

/-- Over a nonzero-flow state, a line's own step leaves it satisfying `PsiC`. -/
theorem propStep_psi_own (acomps : List MineralComponent) (p : List FlowLine × ℕ)
    (k : ℕ) (hA : allA p.1) : atIdx (PsiC acomps) k (propStep acomps p k).1 := by
  intro v hv
  cases hfl : p.1.get? k with
  | none =>
    rw [propStep_get?_none acomps p k k hfl] at hv
    exact absurd hv (Option.noConfusion)
  | some fl =>
    obtain ⟨w, hw, hcase⟩ := propStep_get?_own acomps p k fl hfl
    rw [hw] at hv
    obtain rfl : w = v := Option.some.inj hv
    clear hw
    rcases hcase with ⟨h4, -, -, -, -, -⟩ | ⟨-, -, rfl⟩ | ⟨-, hne, rfl⟩
    · exact absurd h4 (hA k fl hfl)
    · cases acomps with
      | nil =>
        rw [defaultFill_nil]
        exact Or.inr (Or.inr ⟨rfl, rfl, rfl⟩)
      | cons c cs =>
        exact Or.inl ⟨(c :: cs).map MineralComponent.id, rfl, by simp⟩
    · by_cases hc : compsEmpty w.components = true
      · have hgr : gradesEmpty w.componentGrades = false := by
          cases hgr2 : gradesEmpty w.componentGrades
          · rfl
          · exact absurd ⟨hc, hgr2⟩ hne
        obtain ⟨d, hd, hdne⟩ := gradesEmpty_false hgr
        exact Or.inr (Or.inl ⟨d, hd, hdne⟩)
      · obtain ⟨l, hl, hlne⟩ := compsEmpty_false (Bool.eq_false_iff.mpr hc)
        exact Or.inl ⟨l, hl, hlne⟩

theorem propStep_psi (acomps : List MineralComponent) (p : List FlowLine × ℕ)
    (i k : ℕ) (hA : allA p.1) (h : atIdx (PsiC acomps) k p.1) :
    atIdx (PsiC acomps) k (propStep acomps p i).1 := by
  by_cases hik : i = k
  · subst hik
    exact propStep_psi_own acomps p i hA
  · intro v hv
    cases hfl : p.1.get? i with
    | none =>
      rw [propStep_noneI acomps p i hfl] at hv
      exact h v hv
    | some fl =>
      rw [propStep_get?_other acomps p i k fl hfl (fun hc => hik hc.symm)] at hv
      obtain ⟨w, hw, rfl⟩ := Option.map_eq_some'.mp hv
      exact gBwd_psi acomps fl _ (gFwd_psi acomps fl w (h w hw))

/-- (C) After one pass over a nonzero-flow state, any still-empty line is a
fixed point of the CASE 3 default fill. -/
theorem pass_C (acomps : List MineralComponent) (arr : List FlowLine)
    (hA : allA arr) (k : ℕ) (v : FlowLine)
    (hv : (propPass acomps arr).1.get? k = some v) (hbe : bothEmptyLine v) :
    defaultFill acomps v = v := by
  have hk : k < arr.length := by
    have h1 : k < (propPass acomps arr).1.length := (List.get?_eq_some.mp hv).1
    rwa [propPass_length] at h1
  have hpsi : PsiC acomps v := by
    rw [propPass_eq_runSteps] at hv
    exact runSteps_est acomps allA (fun p i hp => propStep_allA acomps p i hp)
      (PsiC acomps) k k
      (fun p i hp h => propStep_psi acomps p i k hp h)
      (fun p hp => propStep_psi_own acomps p k hp)
      (List.range arr.length) (arr, 0) hA (List.mem_range.mpr hk) v hv
  obtain ⟨hcE, hgE⟩ := hbe
  rcases hpsi with ⟨l, hl, hlne⟩ | ⟨g, hg, hgne⟩ | ⟨hc, hg, ha⟩
  · rw [hl] at hcE
    simp [compsEmpty] at hcE
    exact absurd hcE hlne
  · rw [hg] at hgE
    simp [gradesEmpty] at hgE
    exact absurd hgE hgne
  · rw [ha, defaultFill_nil]
    cases v with
    | mk id0 f1 t1 flw sp de ps cp cg mc =>
      dsimp only at hc hg ⊢
      rw [hc, hg]

/-- On a state satisfying invariants (A), (B) and (C), one step changes no
line (the change counter may still grow by CASE 3's no-op rewrite). -/
theorem propStep_id (acomps : List MineralComponent) (z : List FlowLine) (c i : ℕ)
    (hA : allA z)
    (hB : ∀ j k fl v, z.get? j = some fl → z.get? k = some v →
      ((fl.fromEquipment = none ∧ fl.toEquipment ≠ none
          ∧ v.fromEquipment = fl.toEquipment) ∨
        (fl.fromEquipment ≠ none ∧ fl.toEquipment = none
          ∧ v.toEquipment = fl.fromEquipment)) → v.componentGrades ≠ none)
    (hC : ∀ k v, z.get? k = some v → bothEmptyLine v → defaultFill acomps v = v) :
    (propStep acomps (z, c) i).1 = z := by
  cases h : z.get? i with
  | none =>
    rw [propStep_noneI acomps (z, c) i h]
  | some fl =>
    unfold propStep
    rw [h]
    dsimp only
    have hfw : fwdMap fl z = z := by
      unfold fwdMap
      split
      · next hg =>
        apply map_id_of
        intro os hos
        obtain ⟨kk, hkk⟩ := List.get?_of_mem hos
        have hnf : ¬ fwdFires fl os = true := by
          intro hf
          unfold fwdFires innerDeficient at hf
          simp only [Bool.and_eq_true, decide_eq_true_eq, Bool.or_eq_true] at hf
          rcases hf.2.2 with hf0 | hgn
          · exact hA kk os hkk hf0
          · exact hB i kk fl os h hkk (Or.inl ⟨hg.1, hg.2, hf.1⟩) hgn
        rw [if_neg hnf]
      · rfl
    have hbw : bwdMap fl z = z := by
      unfold bwdMap
      split
      · next hg =>
        apply map_id_of
        intro os hos
        obtain ⟨kk, hkk⟩ := List.get?_of_mem hos
        have hnf : ¬ bwdFires fl os = true := by
          intro hf
          unfold bwdFires innerDeficient at hf
          simp only [Bool.and_eq_true, decide_eq_true_eq, Bool.or_eq_true] at hf
          rcases hf.2.2 with hf0 | hgn
          · exact hA kk os hkk hf0
          · exact hB i kk fl os h hkk (Or.inr ⟨hg.1, hg.2, hf.1⟩) hgn
        rw [if_neg hnf]
      · rfl
    rw [hfw, hbw]
    have h3 : fillCase3 acomps fl i z = z := by
      unfold fillCase3
      split
      · next hbe =>
        rw [hC i fl h ⟨hbe.1, hbe.2⟩]
        exact set_get?_self z i fl h
      · rfl
    rw [h3]
    unfold fillCase4
    rw [if_neg (hA i fl h)]

theorem runSteps_state_id (acomps : List MineralComponent) (z : List FlowLine)
    (hA : allA z)
    (hB : ∀ j k fl v, z.get? j = some fl → z.get? k = some v →
      ((fl.fromEquipment = none ∧ fl.toEquipment ≠ none
          ∧ v.fromEquipment = fl.toEquipment) ∨
        (fl.fromEquipment ≠ none ∧ fl.toEquipment = none
          ∧ v.toEquipment = fl.fromEquipment)) → v.componentGrades ≠ none)
    (hC : ∀ k v, z.get? k = some v → bothEmptyLine v → defaultFill acomps v = v) :
    ∀ is c, (runSteps acomps is (z, c)).1 = z := by
  intro is
  induction is with
  | nil => intro c; rfl
  | cons i rest ih =>
    intro c
    rw [runSteps_cons]
    have h1 : propStep acomps (z, c) i = (z, (propStep acomps (z, c) i).2) :=
      Prod.ext_iff.mpr ⟨propStep_id acomps z c i hA hB hC, rfl⟩
    rw [h1]
    exact ih _

/-- A state satisfying (A), (B) and (C) is unchanged by a whole pass. -/
theorem pass_NP (acomps : List MineralComponent) (z : List FlowLine)
    (hA : allA z)
    (hB : ∀ j k fl v, z.get? j = some fl → z.get? k = some v →
      ((fl.fromEquipment = none ∧ fl.toEquipment ≠ none
          ∧ v.fromEquipment = fl.toEquipment) ∨
        (fl.fromEquipment ≠ none ∧ fl.toEquipment = none
          ∧ v.toEquipment = fl.fromEquipment)) → v.componentGrades ≠ none)
    (hC : ∀ k v, z.get? k = some v → bothEmptyLine v → defaultFill acomps v = v) :
    (propPass acomps z).1 = z := by
  rw [propPass_eq_runSteps]
  exact runSteps_state_id acomps z hA hB hC (List.range z.length) 0

theorem propStep_snd_le (acomps : List MineralComponent) (p : List FlowLine × ℕ)
    (i : ℕ) : p.2 ≤ (propStep acomps p i).2 := by
  cases h : p.1.get? i with
  | none =>
    rw [propStep_noneI acomps p i h]
  | some fl =>
    unfold propStep
    rw [h]
    dsimp only
    omega

/-- A step that adds nothing to the change counter is the identity. -/
theorem propStep_eq_of_snd (acomps : List MineralComponent) (p : List FlowLine × ℕ)
    (i : ℕ) (h : (propStep acomps p i).2 = p.2) : propStep acomps p i = p := by
  cases hfl : p.1.get? i with
  | none => exact propStep_noneI acomps p i hfl
  | some fl =>
    have hsnd : (propStep acomps p i).2 = p.2 + fwdCount fl p.1
        + bwdCount fl (fwdMap fl p.1)
        + (if compsEmpty fl.components ∧ gradesEmpty fl.componentGrades then 1 else 0)
        + (if fl.flowRate = 0 then 1 else 0) := by
      unfold propStep
      rw [hfl]
    rw [hsnd] at h
    have h1 : fwdCount fl p.1 = 0 := by omega
    have h2 : bwdCount fl (fwdMap fl p.1) = 0 := by omega
    have hc3 : ¬(compsEmpty fl.components = true ∧ gradesEmpty fl.componentGrades = true) := by
      intro hc
      rw [if_pos hc] at h
      omega
    have hc4 : ¬ fl.flowRate = 0 := by
      intro hf
      rw [if_pos hf] at h
      omega
    have hfw : fwdMap fl p.1 = p.1 := by
      by_cases hg : fl.fromEquipment = none ∧ fl.toEquipment ≠ none
      · unfold fwdCount at h1
        rw [if_pos hg] at h1
        unfold fwdMap
        rw [if_pos hg]
        apply map_id_of
        intro os hos
        rw [if_neg (List.countP_eq_zero.mp h1 os hos)]
      · unfold fwdMap
        rw [if_neg hg]
    have hbw : bwdMap fl p.1 = p.1 := by
      rw [hfw] at h2
      by_cases hg : fl.fromEquipment ≠ none ∧ fl.toEquipment = none
      · unfold bwdCount at h2
        rw [if_pos hg] at h2
        unfold bwdMap
        rw [if_pos hg]
        apply map_id_of
        intro os hos
        rw [if_neg (List.countP_eq_zero.mp h2 os hos)]
      · unfold bwdMap
        rw [if_neg hg]
    have hstate : (propStep acomps p i).1 = p.1 := by
      unfold propStep
      rw [hfl]
      dsimp only
      rw [hfw, hbw]
      have h33 : fillCase3 acomps fl i p.1 = p.1 := by
        unfold fillCase3
        rw [if_neg hc3]
      rw [h33]
      unfold fillCase4
      rw [if_neg hc4]
    have hsnd2 : (propStep acomps p i).2 = p.2 := by
      rw [hsnd]
      rw [if_neg hc3, if_neg hc4]
      omega
    exact Prod.ext_iff.mpr ⟨hstate, hsnd2⟩

theorem runSteps_snd_le (acomps : List MineralComponent) (is : List ℕ)
    (p : List FlowLine × ℕ) : p.2 ≤ (runSteps acomps is p).2 := by
  induction is generalizing p with
  | nil => exact le_refl _
  | cons i rest ih =>
    rw [runSteps_cons]
    exact le_trans (propStep_snd_le acomps p i) (ih (propStep acomps p i))

theorem runSteps_eq_of_snd (acomps : List MineralComponent) (is : List ℕ)
    (p : List FlowLine × ℕ) (h : (runSteps acomps is p).2 = p.2) :
    runSteps acomps is p = p := by
  induction is generalizing p with
  | nil => rfl
  | cons i rest ih =>
    rw [runSteps_cons] at h ⊢
    have hle1 := propStep_snd_le acomps p i
    have hle2 := runSteps_snd_le acomps rest (propStep acomps p i)
    have heq : (propStep acomps p i).2 = p.2 := by omega
    rw [propStep_eq_of_snd acomps p i heq] at h ⊢
    exact ih p h

/-- A pass reporting zero changes really left the array unchanged. -/
theorem pass_zero (acomps : List MineralComponent) (arr : List FlowLine)
    (h : (propPass acomps arr).2 = 0) : (propPass acomps arr).1 = arr := by
  rw [propPass_eq_runSteps] at h ⊢
  rw [runSteps_eq_of_snd acomps (List.range arr.length) (arr, 0) h]

theorem propLoop_one (acomps : List MineralComponent) (x : List FlowLine) :
    propLoop acomps 1 x = (propPass acomps x).1 := by
  show (if (propPass acomps x).2 = 0 then (propPass acomps x).1
    else propLoop acomps 0 (propPass acomps x).1) = (propPass acomps x).1
  split <;> rfl

/-- A pass-stable state is a fixed point of the outer loop at any fuel. -/
theorem propLoop_stable_of (acomps : List MineralComponent) :
    ∀ n z, (propPass acomps z).1 = z → propLoop acomps n z = z := by
  intro n
  induction n with
  | zero => intro z _; rfl
  | succ m ih =>
    intro z h
    show (if (propPass acomps z).2 = 0 then (propPass acomps z).1
      else propLoop acomps m (propPass acomps z).1) = z
    split
    · exact h
    · rw [h]
      exact ih z h

/-- With at least two passes of fuel, the loop's result is pass-stable. -/
theorem propLoop_result_stable (acomps : List MineralComponent) :
    ∀ n arr, (propPass acomps (propLoop acomps (n + 2) arr)).1
      = propLoop acomps (n + 2) arr := by
  intro n
  induction n with
  | zero =>
    intro arr
    have h2 : propLoop acomps 2 arr = if (propPass acomps arr).2 = 0
        then (propPass acomps arr).1
        else propLoop acomps 1 (propPass acomps arr).1 := rfl
    rw [h2]
    split
    · next h0 =>
      rw [pass_zero acomps arr h0]
      exact pass_zero acomps arr h0
    · rw [propLoop_one]
      exact pass_NP acomps _ (pass_A acomps _)
        (fun j k fl v hj hk hrel => pass_B acomps _ j k fl v hj hk hrel)
        (fun k v hv hbe => pass_C acomps _ (pass_A acomps arr) k v hv hbe)
  | succ m ih =>
    intro arr
    have h2 : propLoop acomps (m + 1 + 2) arr = if (propPass acomps arr).2 = 0
        then (propPass acomps arr).1
        else propLoop acomps (m + 2) (propPass acomps arr).1 := rfl
    rw [h2]
    split
    · next h0 =>
      rw [pass_zero acomps arr h0]
      exact pass_zero acomps arr h0
    · exact ih (propPass acomps arr).1

/-- C4: `propagateStreamData` is idempotent — running the ten-pass
propagation a second time on its own output changes nothing: after the
first run every flow rate is nonzero (so CASE 4 is silent), every line
with a boundary partner has defined grades (so CASES 1 and 2 are silent),
and any line still empty is a fixed point of the CASE 3 default fill. -/
theorem C4_propagation_idempotent (flowLines : List FlowLine)
    (mineralComponents : List MineralComponent) :
    propagateStreamData (propagateStreamData flowLines mineralComponents)
        mineralComponents
      = propagateStreamData flowLines mineralComponents := by
  unfold propagateStreamData
  exact propLoop_stable_of _ 10 _ (propLoop_result_stable _ 8 flowLines)

end MineSim